import Mathlib

/-!
# Verification of the pygaarst MTL metadata parser (`pygaarst/mtlutils.py`)

This file is a shallow embedding of the parser in `pygaarst/mtlutils.py`:
the line sanitizer, the line classifiers, the state machine
(`_checkstatus` / `_transstat`), the value type inferencer
(`_postprocess`) and the entry points (`_parsemetastream`, `parsemeta`,
`_deep_convert_dict`).

Python strings are modelled as `List Char`.  Python exceptions are
modelled by an explicit error type `PyErr`: fallible code returns
`Except PyErr _`.  Python's mutable `OrderedDict` trees (reached through
the alias stack `dictpath`) are modelled as association lists in a
zipper: the currently open dictionaries are kept as a stack of pending
`(key, entries)` segments that are attached to their parent when the
corresponding nesting level is closed.  Because every write in the
source goes to `dictpath[-1]` (the innermost open dictionary), a parent
dictionary never changes while one of its children is open, so attaching
the child on close produces exactly the tree the aliased mutation
produces.
-/

set_option maxRecDepth 10000

deriving instance DecidableEq for Except

namespace Mtl

/-- Python `str`, modelled as a list of characters. -/
abbrev Str := List Char

/-- Convert a Lean string literal to the `Str` model. -/
def lit (s : String) : Str := s.toList

/-- Python's `\s` character class for `re` on byte strings:
space, tab, newline, carriage return, form feed, vertical tab. -/
def isPySpace (c : Char) : Bool :=
  c = ' ' || c = '\t' || c = '\n' || c = '\r' || c = '\x0c' || c = '\x0b'

/-- `s.lstrip()`-like helper: drop leading whitespace. -/
def pyStripLead (s : Str) : Str := s.dropWhile isPySpace

/-- Drop trailing whitespace. -/
def pyStripTrail (s : Str) : Str := (s.reverse.dropWhile isPySpace).reverse

/-- Python `str.strip()` (both ends). -/
def pyStrip (s : Str) : Str := pyStripTrail (pyStripLead s)

/-- One leftmost-greedy pass of `re.sub(r'\s+=\s+', '=', line)`,
written with explicit fuel (each step consumes at least one character,
so fuel `s.length + 1` is never exhausted). -/
def subWsEqWsF : Nat → Str → Str
  | 0, s => s
  | _ + 1, [] => []
  | f + 1, c :: cs =>
    if isPySpace c then
      let ws1 := (c :: cs).takeWhile isPySpace
      match (c :: cs).dropWhile isPySpace with
      | '=' :: r2 =>
        let r3 := r2.dropWhile isPySpace
        if r2.takeWhile isPySpace = [] then
          ws1 ++ '=' :: subWsEqWsF f r2
        else
          '=' :: subWsEqWsF f r3
      | r1 => ws1 ++ subWsEqWsF f r1
    else
      c :: subWsEqWsF f cs

/-- `re.sub(r'\s+=\s+', '=', line)`: collapse whitespace-surrounded
assignment characters. -/
def subWsEqWs (s : Str) : Str := subWsEqWsF (s.length + 1) s

/-- `_sanitizeline`: applies the three `SANITIZEPAT` substitutions in
order — collapse `\s+=\s+` to `=`, strip leading whitespace, strip
trailing whitespace. -/
def sanitizeline (line : Str) : Str :=
  pyStripTrail (pyStripLead (subWsEqWs line))

/-- Python `s.startswith(p)`: is `p` a leading segment of `s`?
(The prefix to test comes first.) -/
def isPrefixL : Str → Str → Bool
  | [], _ => true
  | _ :: _, [] => false
  | p :: ps, c :: cs => p == c && isPrefixL ps cs

/-- Find the first occurrence of (nonempty) `sep` in `s`; return the
text before it and the text after it. -/
def firstSplit (sep : Str) : Str → Option (Str × Str)
  | [] => none
  | c :: cs =>
    if isPrefixL sep (c :: cs) then some ([], (c :: cs).drop sep.length)
    else
      match firstSplit sep cs with
      | none => none
      | some (pre, post) => some (c :: pre, post)

/-- Python `s.split(sep)` for a nonempty separator, with fuel
(each recursive call is on a strictly shorter suffix, so fuel
`s.length + 1` is never exhausted). -/
def splitOnSubF : Nat → Str → Str → List Str
  | 0, _, s => [s]
  | f + 1, sep, s =>
    match firstSplit sep s with
    | none => [s]
    | some (pre, post) => pre :: splitOnSubF f sep post

/-- Python `s.split(sep)` (nonempty separator). -/
def splitOnSub (sep s : Str) : List Str := splitOnSubF (s.length + 1) sep s

/-! ## The file-format constants of `mtlutils.py` -/

/-- The word `GROUP`. -/
def GROUPW : Str := 'G' :: 'R' :: 'O' :: 'U' :: 'P' :: []

/-- The word `END_GROUP`. -/
def ENDGROUPW : Str := 'E' :: 'N' :: 'D' :: '_' :: 'G' :: 'R' :: 'O' :: 'U' :: 'P' :: []

/-- The word `OBJECT`. -/
def OBJECTW : Str := 'O' :: 'B' :: 'J' :: 'E' :: 'C' :: 'T' :: []

/-- The word `END_OBJECT`. -/
def ENDOBJECTW : Str := 'E' :: 'N' :: 'D' :: '_' :: 'O' :: 'B' :: 'J' :: 'E' :: 'C' :: 'T' :: []

/-- `GRPSTART = "GROUP="`. -/
def GRPSTART : Str := GROUPW ++ ['=']

/-- `GRPEND = "END_GROUP="`. -/
def GRPEND : Str := ENDGROUPW ++ ['=']

/-- `OBJSTART = "OBJECT="`. -/
def OBJSTART : Str := OBJECTW ++ ['=']

/-- `OBJEND = "END_OBJECT="`. -/
def OBJEND : Str := ENDOBJECTW ++ ['=']

/-- `FINAL = "END"`. -/
def FINAL : Str := 'E' :: 'N' :: 'D' :: []

/-- `IGNOREGROUPS = ["INFORMATIONCONTENT"]`. -/
def IGNOREGROUPS : List Str := [lit "INFORMATIONCONTENT"]

/-- The object name `ADDITIONALATTRIBUTENAME`. -/
def AANAME : Str := lit "ADDITIONALATTRIBUTENAME"

/-- The object name `PARAMETERVALUE`. -/
def PVNAME : Str := lit "PARAMETERVALUE"

/-- The key `VALUE`. -/
def VALUEKEY : Str := 'V' :: 'A' :: 'L' :: 'U' :: 'E' :: []

/-! ## Line classifiers -/

/-- `_islinetype(line, testchar)`: `line.strip().startswith(testchar)`. -/
def islinetype (line testchar : Str) : Bool := isPrefixL testchar (pyStrip line)

/-- `_isassignment(line)`: `ASSIGNCHAR in line`. -/
def isassignment (line : Str) : Bool := line.contains '='

/-- `_isfinal(line)`: `line.strip() == FINAL`. -/
def isfinal (line : Str) : Bool := pyStrip line == FINAL

/-- `_getgroupname(line)`: `line.strip().split(GRPSTART)[-1]`. -/
def getgroupname (line : Str) : Str := (splitOnSub GRPSTART (pyStrip line)).getLastD []

/-- `_getendgroupname(line)`: `line.strip().split(GRPEND)[-1]`. -/
def getendgroupname (line : Str) : Str := (splitOnSub GRPEND (pyStrip line)).getLastD []

/-- `_getobjname(line)`: `line.strip().split(OBJSTART)[-1]`. -/
def getobjname (line : Str) : Str := (splitOnSub OBJSTART (pyStrip line)).getLastD []

/-- `_getendobjname(line)`: `line.strip().split(OBJEND)[-1]`. -/
def getendobjname (line : Str) : Str := (splitOnSub OBJEND (pyStrip line)).getLastD []

/-- `_getmetadataitem(line)`: `line.strip().split(ASSIGNCHAR)`. -/
def getmetadataitem (line : Str) : List Str := splitOnSub ['='] (pyStrip line)

/-! ## Python exceptions -/

/-- The Python exceptions that the code in `mtlutils.py` can raise:
the module's own `MTLParseError`, plus the built-in exceptions raised by
the operations it uses (`NameError` for the undefined global
`metadatafn`, `IndexError` for `somelist[-1]` / `del somelist[-1]` on an
empty list, `KeyError` for `popitem()` on an empty dictionary,
`ValueError` for tuple-unpacking a split of the wrong width and for
failed numeric/date conversions, `SyntaxError` from `ast.literal_eval`,
`TypeError` for indexing a list with `None`). -/
inductive PyErr where
  | mtlParseError
  | nameError
  | indexError
  | keyError
  | valueError
  | syntaxError
  | typeError
  deriving DecidableEq, Repr

/-! ## Scalar values -/

/-- The scalar values `_postprocess` can produce: Python `str`, `int`,
`float` (modelled exactly as a rational, since every value the code
builds comes from a finite decimal literal), `datetime.date`,
`datetime.datetime`, `datetime.time`, and `None` (used as the
placeholder value inserted for `ADDITIONALATTRIBUTENAME` objects). -/
inductive PyVal where
  | str : Str → PyVal
  | int : ℤ → PyVal
  | float : ℚ → PyVal
  | date : ℕ → ℕ → ℕ → PyVal
  | datetime : ℕ → ℕ → ℕ → ℕ → ℕ → ℕ → PyVal
  | time : ℕ → ℕ → ℕ → ℕ → PyVal
  | none : PyVal
  deriving DecidableEq, Repr

/-- Is `c` an ASCII decimal digit? -/
def isDig (c : Char) : Bool := '0' ≤ c && c ≤ '9'

/-- Numeric value of a digit character. -/
def digVal (c : Char) : ℕ := c.toNat - '0'.toNat

/-- Value of a digit string in the given base. -/
def digitsVal (base : ℕ) (s : Str) : ℕ := s.foldl (fun a c => a * base + digVal c) 0

/-- `10 ^ n` as a natural number. -/
def pow10 (n : ℕ) : ℕ := Nat.pow 10 n

/-- The exact rational value `[-] mant / 10^fracLen * 10^[-] exp` of a
decimal literal with `mant` the concatenated digits. -/
def decimalVal (neg : Bool) (mant : ℕ) (fracLen : ℕ) (eneg : Bool) (exp : ℕ) : ℚ :=
  let num : ℤ := if neg then -(mant : ℤ) else (mant : ℤ)
  if eneg then mkRat num (pow10 fracLen * pow10 exp)
  else mkRat (num * (pow10 exp : ℤ)) (pow10 fracLen)

/-- Split a string into its leading digit run and the rest. -/
def spanDigits (s : Str) : Str × Str := (s.takeWhile isDig, s.dropWhile isDig)

/-- The literal recognized by `ast.literal_eval` (Python 2.7),
restricted to what its argument can be here: the input string has had
all quote characters removed, so only numeric literals can succeed.
Accepts an optional sign followed by an integer literal (Python 2
octal rules for a leading zero: a multi-digit literal starting with
`0` must be all octal digits and denotes an octal value) or a
floating-point literal (`digits [. digits] [e|E [sign] digits]`, with
at least one digit and at least one of the fractional part or the
exponent present, or `. digits` forms).  Anything else — identifiers,
date-like strings, malformed text — fails (see `literal_eval` for the
exceptions).  (Python 2 `long` literals with an `L` suffix are not
modelled; MTL values never carry them.) -/
def parseNumLit (s : Str) : Option PyVal :=
  let (neg, s1) :=
    match s with
    | '-' :: rest => (true, rest)
    | '+' :: rest => (false, rest)
    | _ => (false, s)
  let (ip, r1) := spanDigits s1
  match r1 with
  | [] =>
    -- pure integer literal
    match ip with
    | [] => Option.none
    | '0' :: _ :: _ =>
      -- Python 2 octal literal: all digits must be < 8
      if ip.all (fun c => isDig c && c ≠ '8' && c ≠ '9') then
        Option.some (PyVal.int (if neg then -(digitsVal 8 ip : ℤ) else (digitsVal 8 ip : ℤ)))
      else Option.none
    | _ =>
      Option.some (PyVal.int (if neg then -(digitsVal 10 ip : ℤ) else (digitsVal 10 ip : ℤ)))
  | '.' :: r2 =>
    let (fp, r3) := spanDigits r2
    if ip = [] ∧ fp = [] then Option.none
    else
      match r3 with
      | [] =>
        Option.some (PyVal.float (floatVal neg ip fp false []))
      | e :: r4 =>
        if e = 'e' ∨ e = 'E' then
          match parseExp r4 with
          | Option.some (eneg, ed) => Option.some (PyVal.float (floatVal neg ip fp eneg ed))
          | Option.none => Option.none
        else Option.none
  | e :: r4 =>
    if (e = 'e' ∨ e = 'E') ∧ ip ≠ [] then
      match parseExp r4 with
      | Option.some (eneg, ed) => Option.some (PyVal.float (floatVal neg ip [] eneg ed))
      | Option.none => Option.none
    else Option.none
where
  /-- Parse the `[sign] digits` of an exponent; the digits must be
  nonempty and consume the whole rest. -/
  parseExp (r : Str) : Option (Bool × Str) :=
    let (en, r1) :=
      match r with
      | '-' :: rest => (true, rest)
      | '+' :: rest => (false, rest)
      | _ => (false, r)
    let (ed, r2) := spanDigits r1
    if ed ≠ [] ∧ r2 = [] then Option.some (en, ed) else Option.none
  /-- Exact rational value of `[-] ip . fp e [-] ed`. -/
  floatVal (neg : Bool) (ip fp : Str) (eneg : Bool) (ed : Str) : ℚ :=
    decimalVal neg (digitsVal 10 (ip ++ fp)) fp.length eneg (digitsVal 10 ed)

/-- `ast.literal_eval` as used by `_postprocess` (see `parseNumLit`).
`literal_eval` calls `compile()`, and in Python 2.7 `compile()` on a
`str` containing a null byte raises `TypeError` ("compile() expected
string without null bytes") — an exception the caller does NOT catch.
Every other failure on a string raises `ValueError` (a parsed
expression that is not a literal) or `SyntaxError` (malformed text);
the sole caller catches those two identically, so they are modelled
uniformly as `SyntaxError`. -/
def literal_eval (s : Str) : Except PyErr PyVal :=
  if s.contains '\x00' then Except.error PyErr.typeError
  else
    match parseNumLit s with
    | Option.some v => Except.ok v
    | Option.none => Except.error PyErr.syntaxError

/-- Consume one optional occurrence of `c` at the head (regex `c?`). -/
def optChar (c : Char) : Str → Str
  | [] => []
  | d :: rest => if d = c then rest else d :: rest

/-- `intpattern = r'^"?\-?\d+"?$'` matched against the (quote-free)
test string. -/
def matchIntPat (s : Str) : Bool :=
  let s1 := optChar '"' s
  let s2 := optChar '-' s1
  let (ds, r) := spanDigits s2
  ds ≠ [] && optChar '"' r = []

/-- `int(teststr)` for a string matching `intpattern` (decimal; `int()`
never uses octal for strings). -/
def pyIntVal (s : Str) : ℤ :=
  match optChar '"' s with
  | '-' :: rest => -(digitsVal 10 ((optChar '"' rest).takeWhile isDig) : ℤ)
  | rest => (digitsVal 10 ((optChar '"' rest).takeWhile isDig) : ℤ)

/-- `floatpattern = r'^"?\-?\d+\.\d+(E[+-]?\d\d+)?"?$'`: optional quote,
optional minus, digits, a decimal point, digits, then an optional
uppercase-`E` exponent with two or more digits, optional quote, end. -/
def matchFloatPat (s : Str) : Bool :=
  let s1 := optChar '"' s
  let (neg, s2) := match s1 with
    | '-' :: rest => (true, rest)
    | _ => (false, s1)
  let _ := neg
  let (ip, r1) := spanDigits s2
  match r1 with
  | '.' :: r2 =>
    let (fp, r3) := spanDigits r2
    if ip = [] ∨ fp = [] then false
    else
      match r3 with
      | 'E' :: r4 =>
        let r5 := match r4 with
          | '+' :: rest => rest
          | '-' :: rest => rest
          | _ => r4
        let (ed, r6) := spanDigits r5
        decide (2 ≤ ed.length) && optChar '"' r6 = []
      | _ => optChar '"' r3 = []
  | _ => false

/-- `float(teststr)` for a string matching `floatpattern`. -/
def pyFloatVal (s : Str) : ℚ :=
  let s1 := optChar '"' s
  let (neg, s2) := match s1 with
    | '-' :: rest => (true, rest)
    | _ => (false, s1)
  let (ip, r1) := spanDigits s2
  match r1 with
  | '.' :: r2 =>
    let (fp, r3) := spanDigits r2
    match r3 with
    | 'E' :: r4 =>
      let (eneg, r5) := match r4 with
        | '+' :: rest => (false, rest)
        | '-' :: rest => (true, rest)
        | _ => (false, r4)
      let ed := (spanDigits r5).1
      decimalVal neg (digitsVal 10 (ip ++ fp)) fp.length eneg (digitsVal 10 ed)
    | _ => decimalVal neg (digitsVal 10 (ip ++ fp)) fp.length false 0
  | _ => 0

/-- Is `y` a (Gregorian, `datetime`-style) leap year? -/
def isLeap (y : ℕ) : Bool := (y % 4 = 0 && y % 100 ≠ 0) || y % 400 = 0

/-- Days in a month, as validated by the `datetime.date` constructor. -/
def daysInMonth (y m : ℕ) : ℕ :=
  if m = 2 then (if isLeap y then 29 else 28)
  else if m = 4 ∨ m = 6 ∨ m = 9 ∨ m = 11 then 30
  else 31

/-- A digit-only field of length between 1 and `maxLen`. -/
def digField (maxLen : ℕ) (s : Str) : Bool :=
  s ≠ [] && decide (s.length ≤ maxLen) && s.all isDig

/-- `datetime.datetime.strptime(s, '%Y-%m-%d')` followed by the
`datetime` constructor's validity checks: exactly a 4-digit year
(`%Y` matches exactly four digits), a 1–2 digit month in `1..12`, a
1–2 digit day valid for that month, nothing left over; year `0000` is
rejected by the constructor (`MINYEAR = 1`). -/
def strpDate? (s : Str) : Option (ℕ × ℕ × ℕ) :=
  match splitOnSub ['-'] s with
  | [ys, ms, ds] =>
    if digField 4 ys && ys.length = 4 && digField 2 ms && digField 2 ds then
      let y := digitsVal 10 ys
      let m := digitsVal 10 ms
      let d := digitsVal 10 ds
      if 1 ≤ y ∧ 1 ≤ m ∧ m ≤ 12 ∧ 1 ≤ d ∧ d ≤ daysInMonth y m then
        Option.some (y, m, d)
      else Option.none
    else Option.none
  | _ => Option.none

/-- `strptime(s, '%Y-%m-%d').date()`; failure raises `ValueError`. -/
def strpDate (s : Str) : Except PyErr PyVal :=
  match strpDate? s with
  | Option.some (y, m, d) => Except.ok (PyVal.date y m d)
  | Option.none => Except.error PyErr.valueError

/-- The time-of-day part `HH:MM:SS` with ranges checked
(hour `0..23`, minute `0..59`, second `0..59`; `strptime`'s `%S`
nominally admits leap seconds `60`/`61` but the `datetime`/`time`
constructors reject them, and both paths raise `ValueError`, so they
are folded into the failure case). -/
def timeParts? (hs ms ss : Str) : Option (ℕ × ℕ × ℕ) :=
  if digField 2 hs && digField 2 ms && digField 2 ss then
    let h := digitsVal 10 hs
    let mi := digitsVal 10 ms
    let sec := digitsVal 10 ss
    if h ≤ 23 ∧ mi ≤ 59 ∧ sec ≤ 59 then Option.some (h, mi, sec) else Option.none
  else Option.none

/-- `strptime(s, '%Y-%m-%dT%H:%M:%SZ')`: a date, a literal `T`, a
time-of-day, a literal `Z`, end of string. -/
def strpDatetime? (s : Str) : Option (ℕ × ℕ × ℕ × ℕ × ℕ × ℕ) :=
  match splitOnSub ['T'] s with
  | [ds, ts] =>
    match strpDate? ds with
    | Option.some (y, m, d) =>
      match splitOnSub [':'] ts with
      | [hs, mins, rest] =>
        match rest.reverse with
        | 'Z' :: revsecs =>
          match timeParts? hs mins revsecs.reverse with
          | Option.some (h, mi, sec) => Option.some (y, m, d, h, mi, sec)
          | Option.none => Option.none
        | _ => Option.none
      | _ => Option.none
    | Option.none => Option.none
  | _ => Option.none

/-- `strptime(s, '%Y-%m-%dT%H:%M:%SZ')`; failure raises `ValueError`. -/
def strpDatetime (s : Str) : Except PyErr PyVal :=
  match strpDatetime? s with
  | Option.some (y, m, d, h, mi, sec) => Except.ok (PyVal.datetime y m d h mi sec)
  | Option.none => Except.error PyErr.valueError

/-- `re.match(timepattern, teststr)` where
`timepattern = r'^"?\d{2}:\d{2}:\d{2}(\.\d{6})?"?'`: a prefix match;
returns the matched prefix (`mat.group(0)`).  The quote alternatives
can never fire because the test string has had all quote characters
removed, so they are not modelled. -/
def timeMatch (s : Str) : Option Str :=
  match s with
  | h1 :: h2 :: ':' :: m1 :: m2 :: ':' :: s1 :: s2 :: rest =>
    if isDig h1 && isDig h2 && isDig m1 && isDig m2 && isDig s1 && isDig s2 then
      let base : Str := [h1, h2, ':', m1, m2, ':', s1, s2]
      match rest with
      | '.' :: d1 :: d2 :: d3 :: d4 :: d5 :: d6 :: _ =>
        if isDig d1 && isDig d2 && isDig d3 && isDig d4 && isDig d5 && isDig d6 then
          Option.some (base ++ '.' :: [d1, d2, d3, d4, d5, d6])
        else Option.some base
      | _ => Option.some base
    else Option.none
  | _ => Option.none

/-- Core of `strptime(test, '%H:%M:%S.%f')`: hours, minutes, seconds
and a mandatory fractional part (`%f` scales the digit run to
microseconds). -/
def strpTime? (s : Str) : Option PyVal :=
  match splitOnSub [':'] s with
  | [hs, mins, secfrac] =>
    match splitOnSub ['.'] secfrac with
    | [ss, fs] =>
      if digField 6 fs then
        match timeParts? hs mins ss with
        | Option.some (h, mi, sec) =>
          Option.some (PyVal.time h mi sec (digitsVal 10 fs * 10 ^ (6 - fs.length)))
        | Option.none => Option.none
      else Option.none
    | _ => Option.none
  | _ => Option.none

/-- `strptime(test, '%H:%M:%S.%f').time()`; failure raises
`ValueError`. -/
def strpTime (s : Str) : Except PyErr PyVal :=
  match strpTime? s with
  | Option.some v => Except.ok v
  | Option.none => Except.error PyErr.valueError

/-- `valuestr.replace("'", "").replace('"', "")`. -/
def removeQuotes (s : Str) : Str := s.filter (fun c => c ≠ '\'' && c ≠ '"')

/-- Python `s[1:-1]`. -/
def dropFirstLast (s : Str) : Str := (s.drop 1).dropLast

/-- Python `s.endswith('"')`. -/
def endsWithQuote (s : Str) : Bool :=
  match s.reverse with
  | '"' :: _ => true
  | _ => false

/-- The part of `_postprocess` after the `literal_eval` attempt:
integer pattern, float pattern, date, datetime, time, quoted string,
raw-string fallback.  Exactly the exceptions the source catches
(`ValueError` from the `strptime` calls) are caught; anything else
would propagate. -/
def postprocessRest (valuestr teststr : Str) : Except PyErr PyVal :=
  if matchIntPat teststr then Except.ok (PyVal.int (pyIntVal teststr))
  else if matchFloatPat teststr then Except.ok (PyVal.float (pyFloatVal teststr))
  else
    match strpDate teststr with
    | Except.ok v => Except.ok v
    | Except.error PyErr.valueError =>
      match strpDatetime teststr with
      | Except.ok v => Except.ok v
      | Except.error PyErr.valueError =>
        (match timeMatch teststr with
         | Option.some test =>
           match strpTime test with
           | Except.ok v => Except.ok v
           | Except.error PyErr.valueError => postQuoted valuestr
           | Except.error e => Except.error e
         | Option.none => postQuoted valuestr)
      | Except.error e => Except.error e
    | Except.error e => Except.error e
where
  /-- The two final fallbacks: dequoted string, then the raw string. -/
  postQuoted (valuestr : Str) : Except PyErr PyVal :=
    if isPrefixL ['"'] valuestr && endsWithQuote valuestr then
      Except.ok (PyVal.str (dropFirstLast valuestr))
    else Except.ok (PyVal.str valuestr)

/-- `_postprocess(valuestr)`: the value type inferencer.  Strips quote
characters, tries `literal_eval` on the stripped text (catching exactly
`ValueError` and `SyntaxError`), then falls through the pattern and
date/time attempts of `postprocessRest`. -/
def postprocess (valuestr : Str) : Except PyErr PyVal :=
  let teststr := removeQuotes valuestr
  match literal_eval (pyStrip teststr) with
  | Except.ok v => Except.ok v
  | Except.error PyErr.valueError => postprocessRest valuestr teststr
  | Except.error PyErr.syntaxError => postprocessRest valuestr teststr
  | Except.error e => Except.error e

/-! ## The metadata tree -/

/-- A node of the metadata tree while parsing: a scalar leaf or an
`OrderedDict` composite, modelled as an insertion-ordered association
list.  Dictionary keys are Python values (`_transstat` inserts
`_postprocess(newval)` — not necessarily a string — as a key for
`ADDITIONALATTRIBUTENAME` objects). -/
inductive Meta where
  | val : PyVal → Meta
  | dict : List (PyVal × Meta) → Meta

/-- The entries of a composite (an `OrderedDict` body). -/
abbrev Od := List (PyVal × Meta)

mutual

def decEqMeta : (a b : Meta) → Decidable (a = b)
  | Meta.val x, Meta.val y =>
    match decEq x y with
    | isTrue h => isTrue (by rw [h])
    | isFalse h => isFalse (by intro hc; cases hc; exact h rfl)
  | Meta.dict xs, Meta.dict ys =>
    match decEqOd xs ys with
    | isTrue h => isTrue (by rw [h])
    | isFalse h => isFalse (by intro hc; cases hc; exact h rfl)
  | Meta.val _, Meta.dict _ => isFalse (by intro hc; cases hc)
  | Meta.dict _, Meta.val _ => isFalse (by intro hc; cases hc)

def decEqOd : (xs ys : Od) → Decidable (xs = ys)
  | [], [] => isTrue rfl
  | [], _ :: _ => isFalse (by intro hc; cases hc)
  | _ :: _, [] => isFalse (by intro hc; cases hc)
  | (k, m) :: xs, (k2, m2) :: ys =>
    match decEq k k2, decEqMeta m m2, decEqOd xs ys with
    | isTrue h1, isTrue h2, isTrue h3 => isTrue (by rw [h1, h2, h3])
    | isFalse h1, _, _ =>
      isFalse (by intro hc; injection hc with hp _; injection hp with h1c _; exact h1 h1c)
    | _, isFalse h2, _ =>
      isFalse (by intro hc; injection hc with hp _; injection hp with _ h2c; exact h2 h2c)
    | _, _, isFalse h3 => isFalse (by intro hc; injection hc with _ h3c; exact h3 h3c)

end

instance : DecidableEq Meta := decEqMeta

/-- `d[k] = v` on an `OrderedDict` body: replace in place if the key
exists (keeping its position), otherwise append at the end. -/
def odInsert : Od → PyVal → Meta → Od
  | [], k, v => [(k, v)]
  | (k1, v1) :: rest, k, v =>
    if k1 = k then (k, v) :: rest else (k1, v1) :: odInsert rest k v

/-- `d.popitem()` on an `OrderedDict` (LIFO order: removes and returns
the most recently inserted pair); raises `KeyError` when empty. -/
def odPopLast (d : Od) : Option (Od × PyVal × Meta) :=
  match d.getLast? with
  | Option.none => Option.none
  | Option.some (k, v) => Option.some (d.dropLast, k, v)

/-! ## The parse state -/

/-- The tag stored in `grouppath`: `'g'` for groups, `'o'` for objects. -/
inductive GKind where
  | g
  | o
  deriving DecidableEq, Repr

/-- The mutable state of `_parsemetastream` / `_transstat`:
`grouppath` (a stack of `(name, kind)` pairs, last = top) and the
`dictpath` stack of aliased `OrderedDict`s, modelled as a zipper:
`root` is the bottom dictionary (`metadata`), `opens` the stack of
still-open child dictionaries above it (each with the key under which
it was inserted into its parent), and `rootOnPath` records whether the
bottom dictionary is still on `dictpath` (it is popped off by a
`del dictpath[-1]` that reaches it; the `metadata` variable keeps the
tree alive regardless). -/
structure MState where
  grouppath : List (Str × GKind)
  rootOnPath : Bool
  root : Od
  opens : List (Str × Od)

/-- `dictpath[-1]`: the innermost open dictionary, if `dictpath` is
nonempty. -/
def curDict? (st : MState) : Option Od :=
  match st.opens.getLast? with
  | Option.some (_, d) => Option.some d
  | Option.none => if st.rootOnPath then Option.some st.root else Option.none

/-- Replace the contents of the innermost open dictionary (the effect
of a mutation of `dictpath[-1]`). -/
def setCur (st : MState) (d : Od) : MState :=
  match st.opens.getLast? with
  | Option.some (k, _) => { st with opens := st.opens.dropLast ++ [(k, d)] }
  | Option.none => { st with root := d }

/-- `del dictpath[-1]`: close the innermost open dictionary, attaching
it to its parent under its pending key (in the source the child is
already aliased into the parent; attachment order is the same because
no insertion can reach a parent while a child is open — every write
goes to `dictpath[-1]`).  When only the bottom dictionary is on the
path, it is removed from the path but kept as the parse result; on an
empty `dictpath` the `del` raises `IndexError`. -/
def popDictE (st : MState) : Except PyErr MState :=
  match st.opens.getLast? with
  | Option.some (k, d) =>
    let rest := st.opens.dropLast
    match rest.getLast? with
    | Option.some (k2, d2) =>
      Except.ok { st with
        opens := rest.dropLast ++ [(k2, odInsert d2 (PyVal.str k) (Meta.dict d))] }
    | Option.none =>
      Except.ok { st with opens := [], root := odInsert st.root (PyVal.str k) (Meta.dict d) }
  | Option.none =>
    if st.rootOnPath then Except.ok { st with rootOnPath := false }
    else Except.error PyErr.indexError

/-! ## The state machine -/

/-- The `newstatus` computed by the `if`/`elif` chains of
`_checkstatus`, branch for branch and in the source's test order
(`0` means "no transition found"). -/
def checkstatusRaw (status : Option Nat) (line : Str) : Nat :=
  match status with
  | Option.some 0 =>
    if islinetype line GRPSTART then 1
    else if isfinal line then 4
    else 0
  | Option.some 1 =>
    if islinetype line GRPSTART then 1
    else if islinetype line GRPEND then 3
    else if islinetype line OBJSTART then 5
    else if isassignment line then 2
    else 0
  | Option.some 2 =>
    if islinetype line GRPEND then 3
    else if islinetype line GRPSTART then 1
    else if islinetype line OBJSTART then 5
    else if islinetype line OBJEND then 6
    else if isassignment line then 2
    else 0
  | Option.some 3 =>
    if islinetype line GRPSTART then 1
    else if islinetype line GRPEND then 3
    else if isfinal line then 4
    else if islinetype line OBJSTART then 5
    else if islinetype line OBJEND then 6
    else if isassignment line then 2
    else 0
  | Option.some 5 =>
    if islinetype line GRPSTART then 1
    else if islinetype line GRPEND then 3
    else if islinetype line OBJSTART then 5
    else if islinetype line OBJEND then 6
    else if isassignment line then 2
    else 0
  | Option.some 6 =>
    if islinetype line GRPSTART then 1
    else if islinetype line GRPEND then 3
    else if islinetype line OBJSTART then 5
    else if islinetype line OBJEND then 6
    else if isassignment line then 2
    else 0
  | _ => 0

/-- `_checkstatus(status, line)`.  A `None` status (Python's implicit
return) is modelled as `Option.none`.  When no transition is found and
the status is not `4`, the error message formats `STATUSCODE[status]`:
for a `None` status that raises `TypeError`, for status `5` or `6` it
raises `IndexError` (`STATUSCODE` has entries `0..4` only), otherwise
the intended `MTLParseError` is raised. -/
def checkstatus (status : Option Nat) (line : Str) : Except PyErr (Option Nat) :=
  let newstatus := checkstatusRaw status line
  if newstatus ≠ 0 then Except.ok (Option.some newstatus)
  else if status ≠ Option.some 4 then
    match status with
    | Option.none => Except.error PyErr.typeError
    | Option.some s =>
      if s < 5 then Except.error PyErr.mtlParseError
      else Except.error PyErr.indexError
  else Except.ok Option.none

/-- `_transstat`, status 0 branch: parse error. -/
def transstatS0 : Except PyErr MState := Except.error PyErr.mtlParseError

/-- `_transstat`, status 1 branch (`GROUP=` line): read `dictpath[-1]`
(possible `IndexError`), push `(name, 'g')` onto `grouppath`; unless
the group is ignored, insert a fresh dictionary under the group name
and push it onto `dictpath`. -/
def transstatS1 (st : MState) (line : Str) : Except PyErr MState :=
  match curDict? st with
  | Option.none => Except.error PyErr.indexError
  | Option.some _ =>
    let currentgroup := getgroupname line
    let st1 := { st with grouppath := st.grouppath ++ [(currentgroup, GKind.g)] }
    if IGNOREGROUPS.contains currentgroup then Except.ok st1
    else Except.ok { st1 with opens := st1.opens ++ [(currentgroup, [])] }

/-- `_transstat`, status 2 branch (assignment line): read
`dictpath[-1]` and `grouppath[-1]` (possible `IndexError`), unpack the
split (a split of width other than 2 raises `ValueError`), then insert
according to the parent kind and name, with the three object
value-folding idioms. -/
def transstatS2 (st : MState) (line : Str) : Except PyErr MState :=
  match curDict? st with
  | Option.none => Except.error PyErr.indexError
  | Option.some cd =>
    match st.grouppath.getLast? with
    | Option.none => Except.error PyErr.indexError
    | Option.some (pname, ptag) =>
      match getmetadataitem line with
      | [newkey, newval] =>
        match ptag with
        | GKind.g =>
          if IGNOREGROUPS.contains pname then Except.ok st
          else
            match postprocess newval with
            | Except.ok v => Except.ok (setCur st (odInsert cd (PyVal.str newkey) (Meta.val v)))
            | Except.error e => Except.error e
        | GKind.o =>
          if newkey = VALUEKEY then
            if pname = AANAME then
              match postprocess newval with
              | Except.ok v => Except.ok (setCur st (odInsert cd v (Meta.val PyVal.none)))
              | Except.error e => Except.error e
            else if pname = PVNAME then
              match odPopLast cd with
              | Option.none => Except.error PyErr.keyError
              | Option.some (cd1, curkey, _) =>
                match postprocess newval with
                | Except.ok v => Except.ok (setCur st (odInsert cd1 curkey (Meta.val v)))
                | Except.error e => Except.error e
            else
              match postprocess newval with
              | Except.ok v => Except.ok (setCur st (odInsert cd (PyVal.str pname) (Meta.val v)))
              | Except.error e => Except.error e
          else Except.ok st
      | _ => Except.error PyErr.valueError

/-- `_transstat`, status 3 branch (`END_GROUP=` line): read
`grouppath[-1]` (possible `IndexError`), check the closing name
against it (possible `MTLParseError`), pop `grouppath`, and pop
`dictpath` unless the group is ignored.  The trailing
`currentgroup = grouppath[-1]` lookup catches its own `IndexError` and
has no observable effect. -/
def transstatS3 (st : MState) (line : Str) : Except PyErr MState :=
  let oldgroup := getendgroupname line
  match st.grouppath.getLast? with
  | Option.none => Except.error PyErr.indexError
  | Option.some (top, _) =>
    if oldgroup ≠ top then Except.error PyErr.mtlParseError
    else
      let st1 := { st with grouppath := st.grouppath.dropLast }
      if IGNOREGROUPS.contains oldgroup then Except.ok st1
      else popDictE st1

/-- `_transstat`, status 4 branch (`END` line): a nonempty `grouppath`
is a parse error. -/
def transstatS4 (st : MState) : Except PyErr MState :=
  if st.grouppath ≠ [] then Except.error PyErr.mtlParseError else Except.ok st

/-- `_transstat`, status 5 branch (`OBJECT=` line): push
`(name, 'o')` onto `grouppath`. -/
def transstatS5 (st : MState) (line : Str) : Except PyErr MState :=
  Except.ok { st with grouppath := st.grouppath ++ [(getobjname line, GKind.o)] }

/-- `_transstat`, status 6 branch (`END_OBJECT=` line): read
`grouppath[-1]` (possible `IndexError`), check the closing name,
pop `grouppath`.  The trailing `currentobj` lookup catches its own
`IndexError` and has no observable effect. -/
def transstatS6 (st : MState) (line : Str) : Except PyErr MState :=
  let oldobj := getendobjname line
  match st.grouppath.getLast? with
  | Option.none => Except.error PyErr.indexError
  | Option.some (top, _) =>
    if oldobj ≠ top then Except.error PyErr.mtlParseError
    else Except.ok { st with grouppath := st.grouppath.dropLast }

/-- `_transstat(status, grouppath, dictpath, line)`: the per-transition
side effects, dispatching branch for branch to the helpers above.
Statuses other than `0..6` (only `None` is reachable) fall through
every `elif` and leave the state unchanged. -/
def transstat (status : Option Nat) (st : MState) (line : Str) : Except PyErr MState :=
  match status with
  | Option.some 0 => transstatS0
  | Option.some 1 => transstatS1 st line
  | Option.some 2 => transstatS2 st line
  | Option.some 3 => transstatS3 st line
  | Option.some 4 => transstatS4 st
  | Option.some 5 => transstatS5 st line
  | Option.some 6 => transstatS6 st line
  | _ => Except.ok st

/-- One iteration of the loop in `_parsemetastream`: sanitize, skip
empty lines, the post-`END` check (whose warning call formats the
undefined global name `metadatafn` and therefore raises `NameError`),
then `_checkstatus` and `_transstat`. -/
def stepLine (acc : Option Nat × MState) (rawline : Str) : Except PyErr (Option Nat × MState) :=
  let line := sanitizeline rawline
  if line = [] then Except.ok acc
  else if acc.1 = Option.some 4 then Except.error PyErr.nameError
  else
    match checkstatus acc.1 line with
    | Except.error e => Except.error e
    | Except.ok s1 =>
      match transstat s1 acc.2 line with
      | Except.error e => Except.error e
      | Except.ok st1 => Except.ok (s1, st1)

/-- Run `stepLine` over a list of lines. -/
def runLines : Option Nat × MState → List Str → Except PyErr (Option Nat × MState)
  | acc, [] => Except.ok acc
  | acc, l :: ls =>
    match stepLine acc l with
    | Except.ok acc1 => runLines acc1 ls
    | Except.error e => Except.error e

/-- The initial parse state: `status = 0`, empty `grouppath`,
`dictpath = [metadata]` with `metadata` a fresh empty `OrderedDict`. -/
def initState : MState :=
  { grouppath := [], rootOnPath := true, root := [], opens := [] }

/-- Attach all still-open dictionaries to their parents (in the source
they are already aliased in; this realizes the same tree when the input
ends without closing every level). -/
def collapseOpens (r : Od) : List (Str × Od) → Od
  | [] => r
  | (k, d) :: rest => odInsert r (PyVal.str k) (Meta.dict (collapseOpens d rest))

/-- `_parsemetastream(filehandle)`: fold the loop body over the lines
and return the `metadata` root dictionary. -/
def parsemetastream (ls : List Str) : Except PyErr Od :=
  match runLines (Option.some 0, initState) ls with
  | Except.ok (_, st) => Except.ok (collapseOpens st.root st.opens)
  | Except.error e => Except.error e

/-! ## `_deep_convert_dict` and the entry point -/

/-- The tree after `_deep_convert_dict`: composites are plain Python 2
`dict`s. -/
inductive PyTree where
  | val : PyVal → PyTree
  | dict : List (PyVal × PyTree) → PyTree

mutual

def decEqPyTree : (a b : PyTree) → Decidable (a = b)
  | PyTree.val x, PyTree.val y =>
    match decEq x y with
    | isTrue h => isTrue (by rw [h])
    | isFalse h => isFalse (by intro hc; cases hc; exact h rfl)
  | PyTree.dict xs, PyTree.dict ys =>
    match decEqPyTreeL xs ys with
    | isTrue h => isTrue (by rw [h])
    | isFalse h => isFalse (by intro hc; cases hc; exact h rfl)
  | PyTree.val _, PyTree.dict _ => isFalse (by intro hc; cases hc)
  | PyTree.dict _, PyTree.val _ => isFalse (by intro hc; cases hc)

def decEqPyTreeL : (xs ys : List (PyVal × PyTree)) → Decidable (xs = ys)
  | [], [] => isTrue rfl
  | [], _ :: _ => isFalse (by intro hc; cases hc)
  | _ :: _, [] => isFalse (by intro hc; cases hc)
  | (k, m) :: xs, (k2, m2) :: ys =>
    match decEq k k2, decEqPyTree m m2, decEqPyTreeL xs ys with
    | isTrue h1, isTrue h2, isTrue h3 => isTrue (by rw [h1, h2, h3])
    | isFalse h1, _, _ =>
      isFalse (by intro hc; injection hc with hp _; injection hp with h1c _; exact h1 h1c)
    | _, isFalse h2, _ =>
      isFalse (by intro hc; injection hc with hp _; injection hp with _ h2c; exact h2 h2c)
    | _, _, isFalse h3 => isFalse (by intro hc; injection hc with _ h3c; exact h3 h3c)

end

instance : DecidableEq PyTree := decEqPyTree

/-- A fixed total comparison on keys, used to model the iteration order
of a CPython 2 plain `dict` (see `py2order`). -/
def keyLe (a b : PyVal) : Bool :=
  match a, b with
  | PyVal.str x, PyVal.str y => strLe x y
  | PyVal.str _, _ => true
  | _, PyVal.str _ => false
  | PyVal.int x, PyVal.int y => decide (x ≤ y)
  | PyVal.int _, _ => true
  | _, PyVal.int _ => false
  | PyVal.float x, PyVal.float y => decide (x ≤ y)
  | PyVal.float _, _ => true
  | _, PyVal.float _ => false
  | PyVal.date y1 m1 d1, PyVal.date y2 m2 d2 =>
    decide (y1 * 10000 + m1 * 100 + d1 ≤ y2 * 10000 + m2 * 100 + d2)
  | PyVal.date .., _ => true
  | _, PyVal.date .. => false
  | PyVal.datetime y1 m1 d1 h1 mi1 s1, PyVal.datetime y2 m2 d2 h2 mi2 s2 =>
    decide (((y1 * 10000 + m1 * 100 + d1) * 1000000 + h1 * 10000 + mi1 * 100 + s1)
      ≤ ((y2 * 10000 + m2 * 100 + d2) * 1000000 + h2 * 10000 + mi2 * 100 + s2))
  | PyVal.datetime .., _ => true
  | _, PyVal.datetime .. => false
  | PyVal.time h1 mi1 s1 u1, PyVal.time h2 mi2 s2 u2 =>
    decide ((h1 * 10000 + mi1 * 100 + s1) * 1000000 + u1
      ≤ (h2 * 10000 + mi2 * 100 + s2) * 1000000 + u2)
  | PyVal.time .., PyVal.none => true
  | PyVal.none, PyVal.time .. => false
  | PyVal.none, PyVal.none => true
where
  strLe : Str → Str → Bool
    | [], _ => true
    | _ :: _, [] => false
    | a :: xs, b :: ys => if a = b then strLe xs ys else decide (a < b)

/-- Insert into a key-ordered entry list. -/
def insSorted (x : PyVal × PyTree) : List (PyVal × PyTree) → List (PyVal × PyTree)
  | [] => [x]
  | y :: ys => if keyLe x.1 y.1 then x :: y :: ys else y :: insSorted x ys

/-- The iteration order of a CPython 2 plain `dict` built by
`dict(an_ordered_dict)`: it is a function of the keys (their hashes and
the table layout), not of the insertion order of the `OrderedDict` it
was built from.  It is modelled here as iteration in increasing key
order under the fixed comparison `keyLe`; what matters for the theorems
below is exactly the property the real `dict` has — the order is
determined by the key set alone, independently of insertion order. -/
def py2order : List (PyVal × PyTree) → List (PyVal × PyTree)
  | [] => []
  | x :: xs => insSorted x (py2order xs)

mutual

/-- `_deep_convert_dict(layer)`: recursively convert every
`OrderedDict` layer of the tree into a plain `dict` (scalar leaves pass
through unchanged — their `.items()` lookup raises `AttributeError`,
which the source catches). -/
def deep_convert_dict : Meta → PyTree
  | Meta.val v => PyTree.val v
  | Meta.dict od => PyTree.dict (py2order (deepConvertOd od))

def deepConvertOd : Od → List (PyVal × PyTree)
  | [] => []
  | (k, m) :: rest => (k, deep_convert_dict m) :: deepConvertOd rest

end

/-- `parsemeta` applied to raw text content (the `StringIO` branch):
parse the lines, then `return _deep_convert_dict(metadata)`. -/
def parsemeta_lines (ls : List Str) : Except PyErr PyTree :=
  match parsemetastream ls with
  | Except.ok od => Except.ok (deep_convert_dict (Meta.dict od))
  | Except.error e => Except.error e

/-- The directory branch of `parsemeta`: `metalist` is the result of
`glob.glob(os.path.join(metadataloc, METAPATTERN))` and `content` maps
a filename to the lines of that file.  `if not metalist:` raises
`MTLParseError` ("No files matching metadata file pattern ...");
with more than one match the warning at lines 367–370 formats the
undefined global name `metadatafn`, raising `NameError`; otherwise the
first match is opened and parsed. -/
def parsemeta_dir (metalist : List Str) (content : Str → List Str) : Except PyErr PyTree :=
  match metalist with
  | [] => Except.error PyErr.mtlParseError
  | f :: rest =>
    if rest ≠ [] then Except.error PyErr.nameError
    else parsemeta_lines (content f)

/-! ## Well-formed documents

The grammar of well-formed metadata documents used by the round-trip
theorem: a document is a list of top-level `GROUP` blocks; a block body
is a list of groups, objects and assignments, with closing names
matching opening names by construction.  Tokens are "clean": nonempty,
without whitespace and without the assignment character. -/

mutual

/-- A syntactic item of a metadata document. -/
inductive Item where
  | grp : Str → ItemList → Item
  | obj : Str → ItemList → Item
  | asgn : Str → Str → Item

/-- A list of items (a separate type to get clean mutual recursion). -/
inductive ItemList where
  | nil : ItemList
  | cons : Item → ItemList → ItemList

end

mutual

/-- The lines an item renders to. -/
def itemLines : Item → List Str
  | Item.grp n b => (GRPSTART ++ n) :: (itemsLines b ++ [GRPEND ++ n])
  | Item.obj n b => (OBJSTART ++ n) :: (itemsLines b ++ [OBJEND ++ n])
  | Item.asgn k v => [k ++ '=' :: v]

/-- The lines an item list renders to. -/
def itemsLines : ItemList → List Str
  | ItemList.nil => []
  | ItemList.cons it rest => itemLines it ++ itemsLines rest

end

/-- The full document: the top-level items followed by the `END`
sentinel. -/
def docLines (gs : ItemList) : List Str := itemsLines gs ++ [FINAL]

/-- A token with no whitespace and no assignment character. -/
def wsFree (s : Str) : Prop := ∀ c ∈ s, isPySpace c = false ∧ c ≠ '='

instance (s : Str) : Decidable (wsFree s) := List.decidableBAll _ s

/-- A clean token: nonempty, no whitespace, no `=`. -/
def cleanTok (s : Str) : Prop := s ≠ [] ∧ wsFree s

instance (s : Str) : Decidable (cleanTok s) := instDecidableAnd

/-- Is the last character of `v` different from whitespace (vacuously
true for the empty string)?  `_sanitizeline` strips trailing
whitespace, so an assignment line is already in sanitized form exactly
when its value part satisfies this. -/
def lastNonWs (v : Str) : Bool :=
  match v.getLast? with
  | Option.some c => !(isPySpace c)
  | Option.none => true

/-- A clean assignment value: no `=` (so the line splits at its single
assignment character), no null byte (so `ast.literal_eval` cannot
raise the uncaught `TypeError` of `compile()`), and no trailing
whitespace (so the rendered line is its own sanitized form).  Unlike a
clean token, a clean value MAY contain interior whitespace: quoted
multi-word values such as `"Image courtesy of the U.S. Geological
Survey"` are clean values. -/
def cleanVal (v : Str) : Prop := '=' ∉ v ∧ '\x00' ∉ v ∧ lastNonWs v = true

instance (v : Str) : Decidable (cleanVal v) := by
  unfold cleanVal; infer_instance

/-- Keys that would make an assignment line classify as a marker line. -/
def reservedKey (k : Str) : Prop :=
  k = GROUPW ∨ k = ENDGROUPW ∨ k = OBJECTW ∨ k = ENDOBJECTW

instance (k : Str) : Decidable (reservedKey k) := by
  unfold reservedKey; infer_instance

mutual

/-- Well-formedness of an item: clean names, clean assignment keys,
clean assignment values (which may contain interior whitespace),
non-reserved keys. -/
def wfItem : Item → Prop
  | Item.grp n b => cleanTok n ∧ wfItems b
  | Item.obj n b => cleanTok n ∧ wfItems b
  | Item.asgn k v => cleanTok k ∧ cleanVal v ∧ ¬reservedKey k

/-- Well-formedness of an item list. -/
def wfItems : ItemList → Prop
  | ItemList.nil => True
  | ItemList.cons it rest => wfItem it ∧ wfItems rest

end

mutual

def decWfItem : (it : Item) → Decidable (wfItem it)
  | Item.grp n b =>
    match inferInstanceAs (Decidable (cleanTok n)), decWfItems b with
    | isTrue h1, isTrue h2 => isTrue (show cleanTok n ∧ wfItems b from ⟨h1, h2⟩)
    | isFalse h1, _ => isFalse (fun hc => h1 (And.left hc))
    | _, isFalse h2 => isFalse (fun hc => h2 (And.right hc))
  | Item.obj n b =>
    match inferInstanceAs (Decidable (cleanTok n)), decWfItems b with
    | isTrue h1, isTrue h2 => isTrue (show cleanTok n ∧ wfItems b from ⟨h1, h2⟩)
    | isFalse h1, _ => isFalse (fun hc => h1 (And.left hc))
    | _, isFalse h2 => isFalse (fun hc => h2 (And.right hc))
  | Item.asgn _ _ => by unfold wfItem; infer_instance

def decWfItems : (b : ItemList) → Decidable (wfItems b)
  | ItemList.nil => isTrue trivial
  | ItemList.cons it rest =>
    match decWfItem it, decWfItems rest with
    | isTrue h1, isTrue h2 => isTrue ⟨h1, h2⟩
    | isFalse h1, _ => isFalse (fun hc => h1 hc.1)
    | _, isFalse h2 => isFalse (fun hc => h2 hc.2)

end

instance : ∀ it, Decidable (wfItem it) := decWfItem

instance : ∀ b, Decidable (wfItems b) := decWfItems

/-- Are all top-level items groups?  (The state machine only accepts
`GROUP_START` or `FINAL` from the `begin` state.) -/
def topGroups : ItemList → Prop
  | ItemList.nil => True
  | ItemList.cons (Item.grp _ _) rest => topGroups rest
  | ItemList.cons _ _ => False

instance : ∀ b, Decidable (topGroups b)
  | ItemList.nil => isTrue trivial
  | ItemList.cons (Item.grp _ _) rest =>
    match instDecidableTopGroups rest with
    | isTrue h => isTrue h
    | isFalse h => isFalse h
  | ItemList.cons (Item.obj _ _) _ => isFalse id
  | ItemList.cons (Item.asgn _ _) _ => isFalse id

mutual

/-- The static safety walker: processing the items of a body whose
parent is `(pname, pk)` with `cur` recording whether the innermost
contributing dictionary is known to be nonempty; returns `none` when a
`VALUE` assignment inside a `PARAMETERVALUE` object may hit an empty
dictionary (`popitem` on an empty `OrderedDict`), otherwise the updated
nonemptiness flag. -/
def safeItems (pname : Str) (pk : GKind) (cur : Bool) : ItemList → Option Bool
  | ItemList.nil => Option.some cur
  | ItemList.cons it rest =>
    match safeItem pname pk cur it with
    | Option.none => Option.none
    | Option.some cur1 => safeItems pname pk cur1 rest

/-- Static safety of a single item in the context of parent
`(pname, pk)`. -/
def safeItem (pname : Str) (pk : GKind) (cur : Bool) : Item → Option Bool
  | Item.asgn k _ =>
    match pk with
    | GKind.g =>
      if IGNOREGROUPS.contains pname then Option.some cur else Option.some true
    | GKind.o =>
      if k = VALUEKEY then
        if pname = AANAME then Option.some true
        else if pname = PVNAME then (if cur then Option.some true else Option.none)
        else Option.some true
      else Option.some cur
  | Item.grp n b =>
    if IGNOREGROUPS.contains n then safeItems n GKind.g cur b
    else
      match safeItems n GKind.g false b with
      | Option.none => Option.none
      | Option.some _ => Option.some true
  | Item.obj n b => safeItems n GKind.o cur b

end

/-! ## String lemmas -/

theorem subWsEqWsF_id (f : Nat) (s : Str) (h : ∀ c ∈ s, isPySpace c = false) :
    subWsEqWsF f s = s := by
  induction f generalizing s with
  | zero => rfl
  | succ f ih =>
    cases s with
    | nil => rfl
    | cons c cs =>
      have hc : isPySpace c = false := h c (by simp)
      rw [subWsEqWsF, hc]
      simp only [Bool.false_eq_true, if_false]
      rw [ih cs (fun d hd => h d (by simp [hd]))]

theorem dropWhileWs_id (s : Str) (h : ∀ c ∈ s, isPySpace c = false) :
    s.dropWhile isPySpace = s := by
  cases s with
  | nil => rfl
  | cons c cs => rw [List.dropWhile_cons, h c (by simp)]; simp

theorem pyStrip_id (s : Str) (h : ∀ c ∈ s, isPySpace c = false) : pyStrip s = s := by
  unfold pyStrip pyStripLead pyStripTrail
  rw [dropWhileWs_id s h, dropWhileWs_id s.reverse (fun c hc => h c (List.mem_reverse.mp hc)),
    List.reverse_reverse]

theorem sanitizeline_id (s : Str) (h : ∀ c ∈ s, isPySpace c = false) :
    sanitizeline s = s := by
  unfold sanitizeline subWsEqWs
  rw [subWsEqWsF_id _ s h]
  have := pyStrip_id s h
  unfold pyStrip pyStripLead pyStripTrail at this
  exact this

theorem mem_dropWhile {c : Char} {p : Char → Bool} {l : Str}
    (h : c ∈ l.dropWhile p) : c ∈ l := by
  induction l with
  | nil => cases h
  | cons a as ih =>
    rw [List.dropWhile_cons] at h
    by_cases hp : p a = true
    · rw [if_pos hp] at h
      exact List.mem_cons_of_mem _ (ih h)
    · rw [if_neg hp] at h
      exact h

theorem mem_pyStrip {c : Char} {s : Str} (h : c ∈ pyStrip s) : c ∈ s := by
  unfold pyStrip pyStripTrail pyStripLead at h
  rw [List.mem_reverse] at h
  have h2 := mem_dropWhile h
  rw [List.mem_reverse] at h2
  exact mem_dropWhile h2

theorem mem_removeQuotes {c : Char} {s : Str} (h : c ∈ removeQuotes s) : c ∈ s :=
  List.mem_of_mem_filter h

/-- A string free of null bytes stays free of them through the quote
removal and the strip. -/
theorem nullfree_teststr {s : Str} (hn : '\x00' ∉ s) :
    '\x00' ∉ pyStrip (removeQuotes s) :=
  fun hm => hn (mem_removeQuotes (mem_pyStrip hm))

/-- A string with no `=` is unchanged by the `\s+=\s+` substitution:
the pattern cannot match without an assignment character. -/
theorem subWsEqWsF_no_eq (f : Nat) {s : Str} (h : '=' ∉ s) :
    subWsEqWsF f s = s := by
  induction f generalizing s with
  | zero => rfl
  | succ f ih =>
    cases s with
    | nil => rfl
    | cons c cs =>
      cases hc : isPySpace c with
      | false =>
        rw [subWsEqWsF, hc]
        simp only [Bool.false_eq_true, if_false]
        rw [ih (fun hm => h (List.mem_cons_of_mem _ hm))]
      | true =>
        rw [subWsEqWsF, hc]
        simp only [if_true]
        split
        next r2 heq =>
          exact absurd (mem_dropWhile (heq ▸ List.mem_cons_self '=' r2)) h
        next r1 hne =>
          rw [ih (fun hm => h (mem_dropWhile hm)), List.takeWhile_append_dropWhile]

/-- An assignment line whose key is whitespace-free and whose value
has no `=` is unchanged by the `\s+=\s+` substitution: there is no
whitespace before the `=`, and any whitespace inside the value has no
`=` after it. -/
theorem subWsEqWsF_assign (f : Nat) {k v : Str} (hk : ∀ c ∈ k, isPySpace c = false)
    (hv : '=' ∉ v) : subWsEqWsF f (k ++ '=' :: v) = k ++ '=' :: v := by
  induction f generalizing k with
  | zero => rfl
  | succ f ih =>
    cases k with
    | nil =>
      rw [List.nil_append, subWsEqWsF, show isPySpace '=' = false from rfl]
      simp only [Bool.false_eq_true, if_false]
      rw [subWsEqWsF_no_eq f hv]
    | cons c ks =>
      have hc : isPySpace c = false := hk c (List.mem_cons_self _ _)
      rw [List.cons_append, subWsEqWsF, hc]
      simp only [Bool.false_eq_true, if_false]
      rw [ih (fun d hd => hk d (List.mem_cons_of_mem _ hd))]

/-- An assignment line starts with its nonempty whitespace-free key,
so the leading strip leaves it unchanged. -/
theorem pyStripLead_assign {k v : Str} (hne : k ≠ [])
    (hk : ∀ c ∈ k, isPySpace c = false) :
    pyStripLead (k ++ '=' :: v) = k ++ '=' :: v := by
  cases k with
  | nil => exact absurd rfl hne
  | cons c ks =>
    unfold pyStripLead
    rw [List.cons_append, List.dropWhile_cons, hk c (List.mem_cons_self _ _)]
    simp

/-- An assignment line whose value does not end in whitespace (in
particular when the value is empty, so the line ends in `=`) is
unchanged by the trailing strip. -/
theorem pyStripTrail_assign {k v : Str} (hlv : lastNonWs v = true) :
    pyStripTrail (k ++ '=' :: v) = k ++ '=' :: v := by
  unfold pyStripTrail
  rcases List.eq_nil_or_concat v with rfl | ⟨l, x, hcat⟩
  · have h1 : (k ++ '=' :: ([] : Str)).reverse = '=' :: k.reverse := by
      rw [List.reverse_append]; rfl
    rw [h1, List.dropWhile_cons, show isPySpace '=' = false from rfl]
    simp
  · rw [List.concat_eq_append] at hcat
    subst hcat
    have hx : isPySpace x = false := by
      have hg : (l ++ [x]).getLast? = Option.some x := by simp
      unfold lastNonWs at hlv
      rw [hg] at hlv
      simpa using hlv
    have h1 : (k ++ '=' :: (l ++ [x])).reverse = x :: (l.reverse ++ '=' :: k.reverse) := by
      simp
    rw [h1, List.dropWhile_cons, hx]
    simp

theorem isPrefixL_self_append (p r : Str) : isPrefixL p (p ++ r) = true := by
  induction p with
  | nil => rfl
  | cons c cs ih => simp [isPrefixL, ih]

theorem isPrefixL_mem (p s : Str) (h : isPrefixL p s = true) : ∀ a ∈ p, a ∈ s := by
  induction p generalizing s with
  | nil => intro a ha; cases ha
  | cons c cs ih =>
    cases s with
    | nil => cases h
    | cons d ds =>
      rw [isPrefixL, Bool.and_eq_true, beq_iff_eq] at h
      intro a ha
      rcases List.mem_cons.mp ha with rfl | ha
      · exact h.1 ▸ List.mem_cons_self _ _
      · exact List.mem_cons_of_mem _ (ih ds h.2 a ha)

theorem isPrefixL_eq_marker (w k v : Str) (hw : '=' ∉ w) (hk : '=' ∉ k)
    (h : isPrefixL (w ++ ['=']) (k ++ '=' :: v) = true) : k = w := by
  induction w generalizing k with
  | nil =>
    cases k with
    | nil => rfl
    | cons a ks =>
      exfalso
      rw [List.nil_append, List.cons_append, isPrefixL, Bool.and_eq_true, beq_iff_eq] at h
      exact hk (h.1 ▸ List.mem_cons_self _ _)
  | cons b ws ih =>
    cases k with
    | nil =>
      exfalso
      rw [List.nil_append, List.cons_append, isPrefixL, Bool.and_eq_true, beq_iff_eq] at h
      exact hw (h.1 ▸ List.mem_cons_self _ _)
    | cons a ks =>
      rw [List.cons_append, List.cons_append, isPrefixL, Bool.and_eq_true, beq_iff_eq] at h
      have := ih ks (fun hm => hw (List.mem_cons_of_mem _ hm))
        (fun hm => hk (List.mem_cons_of_mem _ hm)) h.2
      rw [this, h.1]

theorem not_marker_assign (w k v : Str) (hw : '=' ∉ w) (hk : '=' ∉ k) (hne : k ≠ w) :
    isPrefixL (w ++ ['=']) (k ++ '=' :: v) = false := by
  cases h : isPrefixL (w ++ ['=']) (k ++ '=' :: v) with
  | false => rfl
  | true => exact absurd (isPrefixL_eq_marker w k v hw hk h) hne

theorem firstSplit_none (sep s : Str) (c : Char) (hc : c ∈ sep) (hs : c ∉ s) :
    firstSplit sep s = Option.none := by
  induction s with
  | nil => rfl
  | cons d ds ih =>
    rw [firstSplit]
    have hp : isPrefixL sep (d :: ds) = false := by
      cases h : isPrefixL sep (d :: ds) with
      | false => rfl
      | true => exact absurd (isPrefixL_mem sep _ h c hc) hs
    rw [hp]
    simp only [Bool.false_eq_true, if_false]
    rw [ih (fun hm => hs (List.mem_cons_of_mem _ hm))]

theorem splitOnSubF_of_none (f : Nat) (sep s : Str) (h : firstSplit sep s = Option.none) :
    splitOnSubF f sep s = [s] := by
  cases f with
  | zero => rfl
  | succ f => rw [splitOnSubF, h]

theorem splitOnSub_marker (w n : Str) (hn : '=' ∉ n) :
    splitOnSub (w ++ ['=']) ((w ++ ['=']) ++ n) = [[], n] := by
  have h1 : firstSplit (w ++ ['=']) ((w ++ ['=']) ++ n) = Option.some ([], n) := by
    cases hwn : (w ++ ['=']) ++ n with
    | nil => exact absurd (List.append_eq_nil.mp hwn).1 (by simp)
    | cons c cs =>
      rw [firstSplit, ← hwn, isPrefixL_self_append]
      simp only [if_true]
      rw [List.drop_left]
  unfold splitOnSub
  rw [splitOnSubF, h1]
  dsimp only
  rw [splitOnSubF_of_none _ _ _ (firstSplit_none _ _ '=' (by simp) hn)]

theorem firstSplit_eqchar (k v : Str) (hk : '=' ∉ k) :
    firstSplit ['='] (k ++ '=' :: v) = Option.some (k, v) := by
  induction k with
  | nil => rfl
  | cons a ks ih =>
    rw [List.cons_append, firstSplit]
    have ha : a ≠ '=' := fun h => hk (h ▸ List.mem_cons_self _ _)
    have hp : isPrefixL ['='] (a :: (ks ++ '=' :: v)) = false := by
      rw [isPrefixL]
      have : ('=' == a) = false := beq_eq_false_iff_ne.mpr (fun h => ha h.symm)
      rw [this, Bool.false_and]
    rw [hp]
    simp only [Bool.false_eq_true, if_false]
    rw [ih (fun hm => hk (List.mem_cons_of_mem _ hm))]

theorem splitOnSub_assign (k v : Str) (hk : '=' ∉ k) (hv : '=' ∉ v) :
    splitOnSub ['='] (k ++ '=' :: v) = [k, v] := by
  unfold splitOnSub
  rw [splitOnSubF, firstSplit_eqchar k v hk]
  dsimp only
  rw [splitOnSubF_of_none _ _ _ (firstSplit_none _ _ '=' (by simp) hv)]

/-! ## Facts about clean tokens and constructed lines -/

theorem cleanTok.eqFree {s : Str} (h : cleanTok s) : '=' ∉ s :=
  fun hm => ((h.2 '=' hm).2 rfl)

theorem cleanTok.wsf {s : Str} (h : cleanTok s) : ∀ c ∈ s, isPySpace c = false :=
  fun c hc => (h.2 c hc).1

theorem mem_of_getLast {s : Str} {c : Char} (h : s.getLast? = Option.some c) :
    c ∈ s := by
  rcases List.eq_nil_or_concat s with rfl | ⟨l, x, hcat⟩
  · cases h
  · rw [List.concat_eq_append] at hcat
    subst hcat
    have hg : (l ++ [x]).getLast? = Option.some x := by simp
    rw [hg] at h
    injection h with h
    subst h
    simp

theorem cleanTok.lnw {s : Str} (h : cleanTok s) : lastNonWs s = true := by
  unfold lastNonWs
  cases hg : s.getLast? with
  | none => rfl
  | some c =>
    dsimp only
    rw [h.wsf c (mem_of_getLast hg)]
    rfl

theorem cleanVal.noEq {v : Str} (h : cleanVal v) : '=' ∉ v := h.1

theorem cleanVal.noNull {v : Str} (h : cleanVal v) : '\x00' ∉ v := h.2.1

theorem cleanVal.lastOk {v : Str} (h : cleanVal v) : lastNonWs v = true := h.2.2

theorem noWs_marker_line {w : Str} (hw : ∀ c ∈ w, isPySpace c = false)
    {n : Str} (h : cleanTok n) : ∀ c ∈ w ++ n, isPySpace c = false := by
  intro c hc
  rcases List.mem_append.mp hc with hc | hc
  · exact hw c hc
  · exact h.wsf c hc

theorem noWs_assign_line {k v : Str} (hk : cleanTok k) (hv : cleanTok v) :
    ∀ c ∈ k ++ '=' :: v, isPySpace c = false := by
  intro c hc
  rcases List.mem_append.mp hc with hc | hc
  · exact hk.wsf c hc
  · rcases List.mem_cons.mp hc with rfl | hc
    · decide
    · exact hv.wsf c hc

theorem grpstart_wsf : ∀ c ∈ GRPSTART, isPySpace c = false := by decide

theorem grpend_wsf : ∀ c ∈ GRPEND, isPySpace c = false := by decide

theorem objstart_wsf : ∀ c ∈ OBJSTART, isPySpace c = false := by decide

theorem objend_wsf : ∀ c ∈ OBJEND, isPySpace c = false := by decide

theorem sanitize_grpstart {n : Str} (h : cleanTok n) :
    sanitizeline (GRPSTART ++ n) = GRPSTART ++ n :=
  sanitizeline_id _ (noWs_marker_line grpstart_wsf h)

theorem sanitize_grpend {n : Str} (h : cleanTok n) :
    sanitizeline (GRPEND ++ n) = GRPEND ++ n :=
  sanitizeline_id _ (noWs_marker_line grpend_wsf h)

theorem sanitize_objstart {n : Str} (h : cleanTok n) :
    sanitizeline (OBJSTART ++ n) = OBJSTART ++ n :=
  sanitizeline_id _ (noWs_marker_line objstart_wsf h)

theorem sanitize_objend {n : Str} (h : cleanTok n) :
    sanitizeline (OBJEND ++ n) = OBJEND ++ n :=
  sanitizeline_id _ (noWs_marker_line objend_wsf h)

/-- Whitespace-free keys and `=`-free, trailing-whitespace-free values
make an assignment line its own sanitized form; the value may contain
interior whitespace. -/
theorem sanitize_assign {k v : Str} (hk : cleanTok k) (hv : '=' ∉ v)
    (hlv : lastNonWs v = true) :
    sanitizeline (k ++ '=' :: v) = k ++ '=' :: v := by
  unfold sanitizeline subWsEqWs
  rw [subWsEqWsF_assign _ hk.wsf hv, pyStripLead_assign hk.1 hk.wsf,
    pyStripTrail_assign hlv]

/-- The strip alone (as applied inside the classifiers) also leaves
such an assignment line unchanged. -/
theorem pyStrip_assign {k v : Str} (hk : cleanTok k) (hlv : lastNonWs v = true) :
    pyStrip (k ++ '=' :: v) = k ++ '=' :: v := by
  unfold pyStrip
  rw [pyStripLead_assign hk.1 hk.wsf, pyStripTrail_assign hlv]

theorem marker_line_ne_nil {w n : Str} (hw : w ≠ []) : w ++ n ≠ [] := by
  simp [hw]

theorem assign_line_ne_nil {k v : Str} : k ++ '=' :: v ≠ [] := by simp

/-! ## Classification of constructed lines -/

section Classify

variable {n k v : Str}

theorem gs_gs (h : cleanTok n) : islinetype (GRPSTART ++ n) GRPSTART = true := by
  unfold islinetype
  rw [pyStrip_id _ (noWs_marker_line grpstart_wsf h)]
  exact isPrefixL_self_append _ _

theorem gs_ge (h : cleanTok n) : islinetype (GRPSTART ++ n) GRPEND = false := by
  unfold islinetype
  rw [pyStrip_id _ (noWs_marker_line grpstart_wsf h)]
  rfl

theorem gs_os (h : cleanTok n) : islinetype (GRPSTART ++ n) OBJSTART = false := by
  unfold islinetype
  rw [pyStrip_id _ (noWs_marker_line grpstart_wsf h)]
  rfl

theorem gs_oe (h : cleanTok n) : islinetype (GRPSTART ++ n) OBJEND = false := by
  unfold islinetype
  rw [pyStrip_id _ (noWs_marker_line grpstart_wsf h)]
  rfl

theorem gs_fin (h : cleanTok n) : isfinal (GRPSTART ++ n) = false := by
  unfold isfinal
  rw [pyStrip_id _ (noWs_marker_line grpstart_wsf h)]
  rfl

theorem ge_gs (h : cleanTok n) : islinetype (GRPEND ++ n) GRPSTART = false := by
  unfold islinetype
  rw [pyStrip_id _ (noWs_marker_line grpend_wsf h)]
  rfl

theorem ge_ge (h : cleanTok n) : islinetype (GRPEND ++ n) GRPEND = true := by
  unfold islinetype
  rw [pyStrip_id _ (noWs_marker_line grpend_wsf h)]
  exact isPrefixL_self_append _ _

theorem ge_os (h : cleanTok n) : islinetype (GRPEND ++ n) OBJSTART = false := by
  unfold islinetype
  rw [pyStrip_id _ (noWs_marker_line grpend_wsf h)]
  rfl

theorem ge_oe (h : cleanTok n) : islinetype (GRPEND ++ n) OBJEND = false := by
  unfold islinetype
  rw [pyStrip_id _ (noWs_marker_line grpend_wsf h)]
  rfl

theorem os_gs (h : cleanTok n) : islinetype (OBJSTART ++ n) GRPSTART = false := by
  unfold islinetype
  rw [pyStrip_id _ (noWs_marker_line objstart_wsf h)]
  rfl

theorem os_ge (h : cleanTok n) : islinetype (OBJSTART ++ n) GRPEND = false := by
  unfold islinetype
  rw [pyStrip_id _ (noWs_marker_line objstart_wsf h)]
  rfl

theorem os_os (h : cleanTok n) : islinetype (OBJSTART ++ n) OBJSTART = true := by
  unfold islinetype
  rw [pyStrip_id _ (noWs_marker_line objstart_wsf h)]
  exact isPrefixL_self_append _ _

theorem os_fin (h : cleanTok n) : isfinal (OBJSTART ++ n) = false := by
  unfold isfinal
  rw [pyStrip_id _ (noWs_marker_line objstart_wsf h)]
  rfl

theorem oe_gs (h : cleanTok n) : islinetype (OBJEND ++ n) GRPSTART = false := by
  unfold islinetype
  rw [pyStrip_id _ (noWs_marker_line objend_wsf h)]
  rfl

theorem oe_ge (h : cleanTok n) : islinetype (OBJEND ++ n) GRPEND = false := by
  unfold islinetype
  rw [pyStrip_id _ (noWs_marker_line objend_wsf h)]
  rfl

theorem oe_os (h : cleanTok n) : islinetype (OBJEND ++ n) OBJSTART = false := by
  unfold islinetype
  rw [pyStrip_id _ (noWs_marker_line objend_wsf h)]
  rfl

theorem oe_oe (h : cleanTok n) : islinetype (OBJEND ++ n) OBJEND = true := by
  unfold islinetype
  rw [pyStrip_id _ (noWs_marker_line objend_wsf h)]
  exact isPrefixL_self_append _ _

theorem ge_fin (h : cleanTok n) : isfinal (GRPEND ++ n) = false := by
  unfold isfinal
  rw [pyStrip_id _ (noWs_marker_line grpend_wsf h)]
  rfl

theorem oe_fin (h : cleanTok n) : isfinal (OBJEND ++ n) = false := by
  unfold isfinal
  rw [pyStrip_id _ (noWs_marker_line objend_wsf h)]
  rfl

theorem nreserved (hr : ¬reservedKey k) :
    k ≠ GROUPW ∧ k ≠ ENDGROUPW ∧ k ≠ OBJECTW ∧ k ≠ ENDOBJECTW := by
  unfold reservedKey at hr
  push_neg at hr
  exact hr

theorem as_gs (hk : cleanTok k) (hlv : lastNonWs v = true) (hr : ¬reservedKey k) :
    islinetype (k ++ '=' :: v) GRPSTART = false := by
  unfold islinetype
  rw [pyStrip_assign hk hlv]
  show isPrefixL (GROUPW ++ ['=']) (k ++ '=' :: v) = false
  exact not_marker_assign _ _ _ (by decide) hk.eqFree (nreserved hr).1

theorem as_ge (hk : cleanTok k) (hlv : lastNonWs v = true) (hr : ¬reservedKey k) :
    islinetype (k ++ '=' :: v) GRPEND = false := by
  unfold islinetype
  rw [pyStrip_assign hk hlv]
  show isPrefixL (ENDGROUPW ++ ['=']) (k ++ '=' :: v) = false
  exact not_marker_assign _ _ _ (by decide) hk.eqFree (nreserved hr).2.1

theorem as_os (hk : cleanTok k) (hlv : lastNonWs v = true) (hr : ¬reservedKey k) :
    islinetype (k ++ '=' :: v) OBJSTART = false := by
  unfold islinetype
  rw [pyStrip_assign hk hlv]
  show isPrefixL (OBJECTW ++ ['=']) (k ++ '=' :: v) = false
  exact not_marker_assign _ _ _ (by decide) hk.eqFree (nreserved hr).2.2.1

theorem as_oe (hk : cleanTok k) (hlv : lastNonWs v = true) (hr : ¬reservedKey k) :
    islinetype (k ++ '=' :: v) OBJEND = false := by
  unfold islinetype
  rw [pyStrip_assign hk hlv]
  show isPrefixL (ENDOBJECTW ++ ['=']) (k ++ '=' :: v) = false
  exact not_marker_assign _ _ _ (by decide) hk.eqFree (nreserved hr).2.2.2

theorem as_fin (hk : cleanTok k) (hlv : lastNonWs v = true) :
    isfinal (k ++ '=' :: v) = false := by
  unfold isfinal
  rw [pyStrip_assign hk hlv]
  apply beq_eq_false_iff_ne.mpr
  intro hEq
  have : '=' ∈ FINAL := by
    rw [← hEq]
    simp
  exact absurd this (by decide)

theorem as_as : isassignment (k ++ '=' :: v) = true := by
  unfold isassignment
  induction k with
  | nil => rfl
  | cons c cs ih =>
    rw [List.cons_append]
    show List.contains (c :: (cs ++ '=' :: v)) '=' = true
    show List.elem '=' (c :: (cs ++ '=' :: v)) = true
    rw [List.elem_cons]
    cases h : '=' == c with
    | true => rfl
    | false => exact ih

/-! ## Name extraction on constructed lines -/

theorem getgroupname_line (h : cleanTok n) : getgroupname (GRPSTART ++ n) = n := by
  unfold getgroupname
  rw [pyStrip_id _ (noWs_marker_line grpstart_wsf h)]
  show (splitOnSub (GROUPW ++ ['=']) ((GROUPW ++ ['=']) ++ n)).getLastD [] = n
  rw [splitOnSub_marker _ _ h.eqFree]
  rfl

theorem getendgroupname_line (h : cleanTok n) : getendgroupname (GRPEND ++ n) = n := by
  unfold getendgroupname
  rw [pyStrip_id _ (noWs_marker_line grpend_wsf h)]
  show (splitOnSub (ENDGROUPW ++ ['=']) ((ENDGROUPW ++ ['=']) ++ n)).getLastD [] = n
  rw [splitOnSub_marker _ _ h.eqFree]
  rfl

theorem getobjname_line (h : cleanTok n) : getobjname (OBJSTART ++ n) = n := by
  unfold getobjname
  rw [pyStrip_id _ (noWs_marker_line objstart_wsf h)]
  show (splitOnSub (OBJECTW ++ ['=']) ((OBJECTW ++ ['=']) ++ n)).getLastD [] = n
  rw [splitOnSub_marker _ _ h.eqFree]
  rfl

theorem getendobjname_line (h : cleanTok n) : getendobjname (OBJEND ++ n) = n := by
  unfold getendobjname
  rw [pyStrip_id _ (noWs_marker_line objend_wsf h)]
  show (splitOnSub (ENDOBJECTW ++ ['=']) ((ENDOBJECTW ++ ['=']) ++ n)).getLastD [] = n
  rw [splitOnSub_marker _ _ h.eqFree]
  rfl

theorem getmetadataitem_line (hk : cleanTok k) (hv : '=' ∉ v)
    (hlv : lastNonWs v = true) :
    getmetadataitem (k ++ '=' :: v) = [k, v] := by
  unfold getmetadataitem
  rw [pyStrip_assign hk hlv]
  exact splitOnSub_assign _ _ hk.eqFree hv

end Classify

/-! ## Uniform `_checkstatus` results on constructed lines -/

/-- The status values that can occur strictly inside a document body. -/
def midStatus (s : Nat) : Prop := s = 1 ∨ s = 2 ∨ s = 3 ∨ s = 5 ∨ s = 6

theorem checkstatus_grpstart {s : Nat} (hs : s = 0 ∨ midStatus s) {n : Str} (h : cleanTok n) :
    checkstatus (Option.some s) (GRPSTART ++ n) = Except.ok (Option.some 1) := by
  rcases hs with rfl | rfl | rfl | rfl | rfl | rfl <;>
    simp [checkstatus, checkstatusRaw, gs_gs h, gs_ge h, gs_os h, gs_oe h, gs_fin h]

theorem checkstatus_grpend {s : Nat} (hs : midStatus s) {n : Str} (h : cleanTok n) :
    checkstatus (Option.some s) (GRPEND ++ n) = Except.ok (Option.some 3) := by
  rcases hs with rfl | rfl | rfl | rfl | rfl <;>
    simp [checkstatus, checkstatusRaw, ge_gs h, ge_ge h, ge_os h, ge_oe h, ge_fin h]

theorem checkstatus_objstart {s : Nat} (hs : midStatus s) {n : Str} (h : cleanTok n) :
    checkstatus (Option.some s) (OBJSTART ++ n) = Except.ok (Option.some 5) := by
  rcases hs with rfl | rfl | rfl | rfl | rfl <;>
    simp [checkstatus, checkstatusRaw, os_gs h, os_ge h, os_os h, os_fin h]

theorem checkstatus_objend {s : Nat} (hs : s = 2 ∨ s = 3 ∨ s = 5 ∨ s = 6) {n : Str}
    (h : cleanTok n) :
    checkstatus (Option.some s) (OBJEND ++ n) = Except.ok (Option.some 6) := by
  rcases hs with rfl | rfl | rfl | rfl <;>
    simp [checkstatus, checkstatusRaw, oe_gs h, oe_ge h, oe_os h, oe_oe h, oe_fin h]

theorem checkstatus_assign {s : Nat} (hs : midStatus s) {k v : Str}
    (hk : cleanTok k) (hlv : lastNonWs v = true) (hr : ¬reservedKey k) :
    checkstatus (Option.some s) (k ++ '=' :: v) = Except.ok (Option.some 2) := by
  rcases hs with rfl | rfl | rfl | rfl | rfl <;>
    simp [checkstatus, checkstatusRaw, as_gs hk hlv hr, as_ge hk hlv hr, as_os hk hlv hr,
      as_oe hk hlv hr, as_fin hk hlv, as_as]

theorem checkstatus_final {s : Nat} (hs : s = 0 ∨ s = 3) :
    checkstatus (Option.some s) FINAL = Except.ok (Option.some 4) := by
  rcases hs with rfl | rfl <;> decide

/-! ## More state lemmas for the induction -/

theorem odInsert_ne_nil (d : Od) (k : PyVal) (v : Meta) : odInsert d k v ≠ [] := by
  cases d with
  | nil => simp [odInsert]
  | cons e rest =>
    obtain ⟨k1, v1⟩ := e
    unfold odInsert
    split <;> simp

theorem odPopLast_some {d : Od} (h : d ≠ []) :
    ∃ d1 key val, odPopLast d = Option.some (d1, key, val) := by
  rcases List.eq_nil_or_concat d with rfl | ⟨l, x, hcat⟩
  · exact absurd rfl h
  · rw [List.concat_eq_append] at hcat
    obtain ⟨k1, v1⟩ := x
    refine ⟨l, k1, v1, ?_⟩
    unfold odPopLast
    rw [hcat, List.getLast?_concat]
    dsimp only
    rw [List.dropLast_concat]

theorem setCur_setCur (st : MState) (d1 d2 : Od) :
    setCur (setCur st d1) d2 = setCur st d2 := by
  unfold setCur
  cases hop : st.opens.getLast? with
  | none =>
    dsimp only
    rw [hop]
  | some x =>
    obtain ⟨k, d0⟩ := x
    dsimp only
    rw [List.getLast?_concat]
    dsimp only
    rw [List.dropLast_concat]

theorem setCur_gp (st : MState) (X : List (Str × GKind)) (d : Od) :
    setCur { st with grouppath := X } d = { setCur st d with grouppath := X } := by
  unfold setCur
  cases hop : st.opens.getLast? with
  | none => rfl
  | some x => obtain ⟨k, d0⟩ := x; rfl

theorem curDict?_gp (st : MState) (X : List (Str × GKind)) :
    curDict? { st with grouppath := X } = curDict? st := rfl

theorem gp_eta (st : MState) : { st with grouppath := st.grouppath } = st := rfl

theorem runLines_append (acc : Option Nat × MState) (xs ys : List Str) :
    runLines acc (xs ++ ys)
      = (match runLines acc xs with
         | Except.ok acc1 => runLines acc1 ys
         | Except.error e => Except.error e) := by
  induction xs generalizing acc with
  | nil => rfl
  | cons l ls ih =>
    rw [List.cons_append]
    cases h : stepLine acc l with
    | ok acc1 =>
      rw [runLines, h]
      dsimp only
      rw [ih acc1, runLines, h]
    | error e =>
      rw [runLines, h]
      dsimp only
      rw [runLines, h]

/-! ## Totality of the value inferencer -/

theorem literal_eval_err {s : Str} {e : PyErr} (h : literal_eval s = Except.error e) :
    e = PyErr.typeError ∨ e = PyErr.syntaxError := by
  unfold literal_eval at h
  by_cases hc : s.contains '\x00' = true
  · rw [if_pos hc] at h
    cases h
    exact Or.inl rfl
  · rw [if_neg hc] at h
    cases hp : parseNumLit s with
    | some v => rw [hp] at h; cases h
    | none => rw [hp] at h; cases h; exact Or.inr rfl

/-- On null-byte-free input, `literal_eval` fails only with the two
exceptions its caller catches. -/
theorem literal_eval_err_nullfree {s : Str} {e : PyErr} (hn : '\x00' ∉ s)
    (h : literal_eval s = Except.error e) : e = PyErr.syntaxError := by
  rcases literal_eval_err h with rfl | rfl
  · exfalso
    unfold literal_eval at h
    have hc : s.contains '\x00' = false := by
      cases hcc : s.contains '\x00' with
      | false => rfl
      | true => exact absurd (List.mem_of_elem_eq_true hcc) hn
    rw [hc] at h
    simp only [Bool.false_eq_true, if_false] at h
    cases hp : parseNumLit s with
    | some v => rw [hp] at h; cases h
    | none => rw [hp] at h; cases h
  · rfl

theorem strpDate_err {s : Str} {e : PyErr} (h : strpDate s = Except.error e) :
    e = PyErr.valueError := by
  unfold strpDate at h
  cases hp : strpDate? s with
  | some v => rw [hp] at h; cases h
  | none => rw [hp] at h; cases h; rfl

theorem strpDatetime_err {s : Str} {e : PyErr} (h : strpDatetime s = Except.error e) :
    e = PyErr.valueError := by
  unfold strpDatetime at h
  cases hp : strpDatetime? s with
  | some v => rw [hp] at h; obtain ⟨y, m, d, h', mi, sec⟩ := v; cases h
  | none => rw [hp] at h; cases h; rfl

theorem strpTime_err {s : Str} {e : PyErr} (h : strpTime s = Except.error e) :
    e = PyErr.valueError := by
  unfold strpTime at h
  cases hp : strpTime? s with
  | some v => rw [hp] at h; cases h
  | none => rw [hp] at h; cases h; rfl

theorem postQuoted_total (valuestr : Str) :
    ∃ w, postprocessRest.postQuoted valuestr = Except.ok w := by
  unfold postprocessRest.postQuoted
  split
  · exact ⟨_, rfl⟩
  · exact ⟨_, rfl⟩

theorem postprocessRest_total (valuestr teststr : Str) :
    ∃ w, postprocessRest valuestr teststr = Except.ok w := by
  unfold postprocessRest
  split
  · exact ⟨_, rfl⟩
  · split
    · exact ⟨_, rfl⟩
    · cases hd : strpDate teststr with
      | ok w => exact ⟨w, rfl⟩
      | error e =>
        have he := strpDate_err hd
        subst he
        cases hdt : strpDatetime teststr with
        | ok w => exact ⟨w, rfl⟩
        | error e2 =>
          have he2 := strpDatetime_err hdt
          subst he2
          cases htm : timeMatch teststr with
          | none => exact postQuoted_total valuestr
          | some test =>
            show ∃ w, (match strpTime test with
              | Except.ok v => Except.ok v
              | Except.error PyErr.valueError => postprocessRest.postQuoted valuestr
              | Except.error e => Except.error e) = Except.ok w
            cases hti : strpTime test with
            | ok w => exact ⟨w, rfl⟩
            | error e3 =>
              have he3 := strpTime_err hti
              subst he3
              exact postQuoted_total valuestr

/-! ## State-manipulation lemmas -/

theorem setCur_grouppath (st : MState) (d : Od) : (setCur st d).grouppath = st.grouppath := by
  unfold setCur
  cases st.opens.getLast? with
  | none => rfl
  | some x => rfl

theorem setCur_rootOnPath (st : MState) (d : Od) : (setCur st d).rootOnPath = st.rootOnPath := by
  unfold setCur
  cases st.opens.getLast? with
  | none => rfl
  | some x => rfl

theorem getLast?_none {α : Type} {l : List α} (h : l.getLast? = Option.none) : l = [] := by
  rcases List.eq_nil_or_concat l with rfl | ⟨l2, x, rfl⟩
  · rfl
  · rw [List.concat_eq_append, List.getLast?_concat] at h
    cases h

theorem curDict?_setCur (st : MState) (d : Od) (hroot : st.rootOnPath = true) :
    curDict? (setCur st d) = Option.some d := by
  unfold setCur curDict?
  cases hop : st.opens.getLast? with
  | none =>
    dsimp only
    rw [hop]
    simp [hroot]
  | some x =>
    obtain ⟨k, d0⟩ := x
    dsimp only
    rw [List.getLast?_concat]

theorem setCur_self (st : MState) (cd : Od) (hcd : curDict? st = Option.some cd) :
    setCur st cd = st := by
  unfold curDict? at hcd
  unfold setCur
  cases hop : st.opens.getLast? with
  | none =>
    rw [hop] at hcd
    dsimp only at hcd
    cases hr : st.rootOnPath with
    | false => rw [hr] at hcd; simp at hcd
    | true =>
      rw [hr] at hcd
      simp only [if_true] at hcd
      injection hcd with hcd
      dsimp only
      rw [← hcd, ← hr]
  | some x =>
    obtain ⟨k, d0⟩ := x
    rw [hop] at hcd
    dsimp only at hcd
    injection hcd with hcd
    dsimp only
    rw [← hcd]
    have hopeq : st.opens.dropLast ++ [(k, d0)] = st.opens := by
      rcases List.eq_nil_or_concat st.opens with hnil | ⟨l2, x2, hcat⟩
      · rw [hnil] at hop; cases hop
      · rw [List.concat_eq_append] at hcat
        rw [hcat, List.getLast?_concat] at hop
        injection hop with hop
        rw [hcat, List.dropLast_concat, hop]
    rw [hopeq]

/-- Closing a freshly pushed dictionary attaches it under its pending
key into the previous current dictionary. -/
theorem popDictE_concat (st : MState) (n : Str) (d : Od) (cd : Od)
    (hcd : curDict? st = Option.some cd) :
    popDictE { st with opens := st.opens ++ [(n, d)] }
      = Except.ok (setCur st (odInsert cd (PyVal.str n) (Meta.dict d))) := by
  unfold curDict? at hcd
  unfold popDictE setCur
  dsimp only
  rw [List.getLast?_concat]
  dsimp only
  rw [List.dropLast_concat]
  cases hop : st.opens.getLast? with
  | none =>
    rw [hop] at hcd
    dsimp only at hcd
    cases hr : st.rootOnPath with
    | false => rw [hr] at hcd; simp at hcd
    | true =>
      rw [hr] at hcd
      simp only [if_true] at hcd
      injection hcd with hcd
      have hnil := getLast?_none hop
      rw [hcd, hnil]
  | some x =>
    obtain ⟨k2, d2⟩ := x
    rw [hop] at hcd
    dsimp only at hcd
    injection hcd with hcd
    rw [hcd]

/-! ## `_transstat` on constructed lines -/

theorem transstat1_eq {st : MState} {n : Str} {cd : Od}
    (hcd : curDict? st = Option.some cd) (hcl : cleanTok n) :
    transstat (Option.some 1) st (GRPSTART ++ n) = Except.ok
      (if IGNOREGROUPS.contains n then
        { st with grouppath := st.grouppath ++ [(n, GKind.g)] }
      else
        { st with grouppath := st.grouppath ++ [(n, GKind.g)],
                  opens := st.opens ++ [(n, [])] }) := by
  rw [show transstat (Option.some 1) st (GRPSTART ++ n)
    = transstatS1 st (GRPSTART ++ n) from rfl]
  unfold transstatS1
  rw [hcd]
  dsimp only
  rw [getgroupname_line hcl]
  cases hig : IGNOREGROUPS.contains n with
  | true => simp [hig]
  | false => simp [hig]

theorem transstat5_eq {st : MState} {n : Str} (hcl : cleanTok n) :
    transstat (Option.some 5) st (OBJSTART ++ n) = Except.ok
      { st with grouppath := st.grouppath ++ [(n, GKind.o)] } := by
  rw [show transstat (Option.some 5) st (OBJSTART ++ n)
    = transstatS5 st (OBJSTART ++ n) from rfl]
  unfold transstatS5
  rw [getobjname_line hcl]

theorem transstat3_match {st : MState} {n : Str} {t : GKind}
    (hgp : st.grouppath.getLast? = Option.some (n, t)) (hcl : cleanTok n) :
    transstat (Option.some 3) st (GRPEND ++ n) =
      (if IGNOREGROUPS.contains n then
        Except.ok { st with grouppath := st.grouppath.dropLast }
      else popDictE { st with grouppath := st.grouppath.dropLast }) := by
  rw [show transstat (Option.some 3) st (GRPEND ++ n)
    = transstatS3 st (GRPEND ++ n) from rfl]
  unfold transstatS3
  rw [getendgroupname_line hcl, hgp]
  dsimp only
  rw [if_neg (by exact fun h => h rfl)]

theorem transstat6_match {st : MState} {n : Str} {t : GKind}
    (hgp : st.grouppath.getLast? = Option.some (n, t)) (hcl : cleanTok n) :
    transstat (Option.some 6) st (OBJEND ++ n) =
      Except.ok { st with grouppath := st.grouppath.dropLast } := by
  rw [show transstat (Option.some 6) st (OBJEND ++ n)
    = transstatS6 st (OBJEND ++ n) from rfl]
  unfold transstatS6
  rw [getendobjname_line hcl, hgp]
  dsimp only
  rw [if_neg (by exact fun h => h rfl)]

/-! ## `_transstat` status 2 (assignments) -/

theorem mem_of_containsb {l : List Str} {a : Str} (h : l.contains a = true) : a ∈ l :=
  List.mem_of_elem_eq_true h

theorem not_mem_of_containsb {l : List Str} {a : Str} (h : l.contains a = false) : a ∉ l :=
  fun hm => by
    have h2 : l.contains a = true := List.elem_eq_true_of_mem hm
    rw [h2] at h
    cases h

section Transstat2

variable {st : MState} {k v : Str} {cd : Od} {pname : Str}

theorem t2_group_ign (hcd : curDict? st = Option.some cd)
    (hgp : st.grouppath.getLast? = Option.some (pname, GKind.g))
    (hk : cleanTok k) (hv : '=' ∉ v) (hlv : lastNonWs v = true)
    (hig : IGNOREGROUPS.contains pname = true) :
    transstat (Option.some 2) st (k ++ '=' :: v) = Except.ok st := by
  rw [show transstat (Option.some 2) st (k ++ '=' :: v)
    = transstatS2 st (k ++ '=' :: v) from rfl]
  unfold transstatS2
  rw [hcd]
  dsimp only
  cases hgl : st.grouppath.getLast? with
  | none => rw [hgl] at hgp; cases hgp
  | some p =>
    rw [hgl] at hgp
    injection hgp with hgp
    subst hgp
    dsimp only
    rw [getmetadataitem_line hk hv hlv]
    simp [mem_of_containsb hig]

theorem t2_group (hcd : curDict? st = Option.some cd)
    (hgp : st.grouppath.getLast? = Option.some (pname, GKind.g))
    (hk : cleanTok k) (hv : '=' ∉ v) (hlv : lastNonWs v = true)
    (hig : IGNOREGROUPS.contains pname = false)
    {w : PyVal} (hw : postprocess v = Except.ok w) :
    transstat (Option.some 2) st (k ++ '=' :: v)
      = Except.ok (setCur st (odInsert cd (PyVal.str k) (Meta.val w))) := by
  rw [show transstat (Option.some 2) st (k ++ '=' :: v)
    = transstatS2 st (k ++ '=' :: v) from rfl]
  unfold transstatS2
  rw [hcd]
  dsimp only
  cases hgl : st.grouppath.getLast? with
  | none => rw [hgl] at hgp; cases hgp
  | some p =>
    rw [hgl] at hgp
    injection hgp with hgp
    subst hgp
    dsimp only
    rw [getmetadataitem_line hk hv hlv]
    simp [not_mem_of_containsb hig, hw]

theorem t2_obj_nonvalue (hcd : curDict? st = Option.some cd)
    (hgp : st.grouppath.getLast? = Option.some (pname, GKind.o))
    (hk : cleanTok k) (hv : '=' ∉ v) (hlv : lastNonWs v = true)
    (hkv : k ≠ VALUEKEY) :
    transstat (Option.some 2) st (k ++ '=' :: v) = Except.ok st := by
  rw [show transstat (Option.some 2) st (k ++ '=' :: v)
    = transstatS2 st (k ++ '=' :: v) from rfl]
  unfold transstatS2
  rw [hcd]
  dsimp only
  cases hgl : st.grouppath.getLast? with
  | none => rw [hgl] at hgp; cases hgp
  | some p =>
    rw [hgl] at hgp
    injection hgp with hgp
    subst hgp
    dsimp only
    rw [getmetadataitem_line hk hv hlv]
    simp [hkv]

theorem t2_obj_aan (hcd : curDict? st = Option.some cd)
    (hgp : st.grouppath.getLast? = Option.some (AANAME, GKind.o))
    (hv : '=' ∉ v) (hlv : lastNonWs v = true)
    {w : PyVal} (hw : postprocess v = Except.ok w) :
    transstat (Option.some 2) st (VALUEKEY ++ '=' :: v)
      = Except.ok (setCur st (odInsert cd w (Meta.val PyVal.none))) := by
  rw [show transstat (Option.some 2) st (VALUEKEY ++ '=' :: v)
    = transstatS2 st (VALUEKEY ++ '=' :: v) from rfl]
  unfold transstatS2
  rw [hcd]
  dsimp only
  cases hgl : st.grouppath.getLast? with
  | none => rw [hgl] at hgp; cases hgp
  | some p =>
    rw [hgl] at hgp
    injection hgp with hgp
    subst hgp
    dsimp only
    rw [getmetadataitem_line (by decide) hv hlv]
    simp [hw]

theorem t2_obj_pv (hcd : curDict? st = Option.some cd)
    (hgp : st.grouppath.getLast? = Option.some (PVNAME, GKind.o))
    (hv : '=' ∉ v) (hlv : lastNonWs v = true)
    {cd1 : Od} {curkey : PyVal} {oldv : Meta}
    (hpop : odPopLast cd = Option.some (cd1, curkey, oldv))
    {w : PyVal} (hw : postprocess v = Except.ok w) :
    transstat (Option.some 2) st (VALUEKEY ++ '=' :: v)
      = Except.ok (setCur st (odInsert cd1 curkey (Meta.val w))) := by
  rw [show transstat (Option.some 2) st (VALUEKEY ++ '=' :: v)
    = transstatS2 st (VALUEKEY ++ '=' :: v) from rfl]
  unfold transstatS2
  rw [hcd]
  dsimp only
  cases hgl : st.grouppath.getLast? with
  | none => rw [hgl] at hgp; cases hgp
  | some p =>
    rw [hgl] at hgp
    injection hgp with hgp
    subst hgp
    dsimp only
    rw [getmetadataitem_line (by decide) hv hlv]
    simp [hpop, hw, show PVNAME ≠ AANAME by decide]

theorem t2_obj_other (hcd : curDict? st = Option.some cd)
    (hgp : st.grouppath.getLast? = Option.some (pname, GKind.o))
    (hv : '=' ∉ v) (hlv : lastNonWs v = true)
    (hp1 : pname ≠ AANAME) (hp2 : pname ≠ PVNAME)
    {w : PyVal} (hw : postprocess v = Except.ok w) :
    transstat (Option.some 2) st (VALUEKEY ++ '=' :: v)
      = Except.ok (setCur st (odInsert cd (PyVal.str pname) (Meta.val w))) := by
  rw [show transstat (Option.some 2) st (VALUEKEY ++ '=' :: v)
    = transstatS2 st (VALUEKEY ++ '=' :: v) from rfl]
  unfold transstatS2
  rw [hcd]
  dsimp only
  cases hgl : st.grouppath.getLast? with
  | none => rw [hgl] at hgp; cases hgp
  | some p =>
    rw [hgl] at hgp
    injection hgp with hgp
    subst hgp
    dsimp only
    rw [getmetadataitem_line (by decide) hv hlv]
    simp [hp1, hp2, hw]

end Transstat2

/-! ## `stepLine` on constructed lines -/

theorem mid_ne4 {s : Nat} (hs : s = 0 ∨ midStatus s) :
    (Option.some s : Option Nat) ≠ Option.some 4 := by
  rcases hs with rfl | rfl | rfl | rfl | rfl | rfl <;> simp

theorem stepLine_eq (acc : Option Nat × MState) (l : Str) (hsan : sanitizeline l = l)
    (hne : l ≠ []) (hst : acc.1 ≠ Option.some 4) :
    stepLine acc l =
      (match checkstatus acc.1 l with
       | Except.error e => Except.error e
       | Except.ok s1 =>
         match transstat s1 acc.2 l with
         | Except.error e => Except.error e
         | Except.ok st1 => Except.ok (s1, st1)) := by
  have hrw : stepLine acc l =
      (if sanitizeline l = [] then Except.ok acc
       else if acc.1 = Option.some 4 then Except.error PyErr.nameError
       else match checkstatus acc.1 (sanitizeline l) with
         | Except.error e => Except.error e
         | Except.ok s1 =>
           match transstat s1 acc.2 (sanitizeline l) with
           | Except.error e => Except.error e
           | Except.ok st1 => Except.ok (s1, st1)) := rfl
  rw [hrw, hsan, if_neg hne, if_neg hst]

theorem step_grpstart {s : Nat} {st : MState} {n : Str} {cd : Od}
    (hs : s = 0 ∨ midStatus s) (hcl : cleanTok n) (hcd : curDict? st = Option.some cd) :
    stepLine (Option.some s, st) (GRPSTART ++ n) = Except.ok (Option.some 1,
      if IGNOREGROUPS.contains n then
        { st with grouppath := st.grouppath ++ [(n, GKind.g)] }
      else
        { st with grouppath := st.grouppath ++ [(n, GKind.g)],
                  opens := st.opens ++ [(n, [])] }) := by
  rw [stepLine_eq _ _ (sanitize_grpstart hcl) (marker_line_ne_nil (by decide)) (mid_ne4 hs)]
  rw [checkstatus_grpstart hs hcl]
  dsimp only
  rw [transstat1_eq hcd hcl]

theorem step_objstart {s : Nat} {st : MState} {n : Str}
    (hs : midStatus s) (hcl : cleanTok n) :
    stepLine (Option.some s, st) (OBJSTART ++ n) = Except.ok (Option.some 5,
      { st with grouppath := st.grouppath ++ [(n, GKind.o)] }) := by
  rw [stepLine_eq _ _ (sanitize_objstart hcl) (marker_line_ne_nil (by decide))
    (mid_ne4 (Or.inr hs))]
  rw [checkstatus_objstart hs hcl]
  dsimp only
  rw [transstat5_eq hcl]

theorem step_grpend {s : Nat} {st : MState} {n : Str} {t : GKind}
    (hs : midStatus s) (hcl : cleanTok n)
    (hgp : st.grouppath.getLast? = Option.some (n, t)) :
    stepLine (Option.some s, st) (GRPEND ++ n) =
      (if IGNOREGROUPS.contains n then
        Except.ok (Option.some 3, { st with grouppath := st.grouppath.dropLast })
      else
        match popDictE { st with grouppath := st.grouppath.dropLast } with
        | Except.ok st1 => Except.ok (Option.some 3, st1)
        | Except.error e => Except.error e) := by
  rw [stepLine_eq _ _ (sanitize_grpend hcl) (marker_line_ne_nil (by decide))
    (mid_ne4 (Or.inr hs))]
  rw [checkstatus_grpend hs hcl]
  dsimp only
  rw [transstat3_match hgp hcl]
  cases hig : IGNOREGROUPS.contains n with
  | true => simp
  | false =>
    simp only [Bool.false_eq_true, if_false]
    cases popDictE { st with grouppath := st.grouppath.dropLast } with
    | ok st1 => rfl
    | error e => rfl

theorem step_objend {s : Nat} {st : MState} {n : Str} {t : GKind}
    (hs : s = 2 ∨ s = 3 ∨ s = 5 ∨ s = 6) (hcl : cleanTok n)
    (hgp : st.grouppath.getLast? = Option.some (n, t)) :
    stepLine (Option.some s, st) (OBJEND ++ n) =
      Except.ok (Option.some 6, { st with grouppath := st.grouppath.dropLast }) := by
  have hs' : midStatus s := by rcases hs with rfl | rfl | rfl | rfl <;> simp [midStatus]
  rw [stepLine_eq _ _ (sanitize_objend hcl) (marker_line_ne_nil (by decide))
    (mid_ne4 (Or.inr hs'))]
  rw [checkstatus_objend hs hcl]
  dsimp only
  rw [transstat6_match hgp hcl]

theorem step_asgn_start {s : Nat} {st : MState} {k v : Str}
    (hs : midStatus s) (hk : cleanTok k) (hv : '=' ∉ v) (hlv : lastNonWs v = true)
    (hr : ¬reservedKey k) :
    stepLine (Option.some s, st) (k ++ '=' :: v) =
      (match transstat (Option.some 2) st (k ++ '=' :: v) with
       | Except.error e => Except.error e
       | Except.ok st1 => Except.ok (Option.some 2, st1)) := by
  rw [stepLine_eq _ _ (sanitize_assign hk hv hlv) assign_line_ne_nil (mid_ne4 (Or.inr hs))]
  rw [checkstatus_assign hs hk hlv hr]

theorem postprocess_total (s : Str) (hn : '\x00' ∉ s) :
    ∃ v, postprocess s = Except.ok v := by
  have hrw : postprocess s = (match literal_eval (pyStrip (removeQuotes s)) with
    | Except.ok v => Except.ok v
    | Except.error PyErr.valueError => postprocessRest s (removeQuotes s)
    | Except.error PyErr.syntaxError => postprocessRest s (removeQuotes s)
    | Except.error e => Except.error e) := rfl
  rw [hrw]
  cases h : literal_eval (pyStrip (removeQuotes s)) with
  | ok v => exact ⟨v, rfl⟩
  | error e =>
    have he := literal_eval_err_nullfree (nullfree_teststr hn) h
    subst he
    exact postprocessRest_total s (removeQuotes s)

/-! ## The round-trip induction -/

theorem mid236 {s : Nat} (h : s = 2 ∨ s = 3 ∨ s = 6) : midStatus s := by
  unfold midStatus
  omega

theorem runLines_single (acc : Option Nat × MState) (l : Str) :
    runLines acc [l]
      = (match stepLine acc l with
         | Except.ok a => Except.ok a
         | Except.error e => Except.error e) := by
  cases h : stepLine acc l with
  | ok a => rw [runLines, h]; rfl
  | error e => rw [runLines, h]

/-- Pushing a fresh open dictionary and then writing the current
dictionary rewrites the pushed entry. -/
theorem setCur_push (st : MState) (X : List (Str × GKind)) (n : Str) (d0 d : Od) :
    setCur { st with grouppath := X, opens := st.opens ++ [(n, d0)] } d
      = { st with grouppath := X, opens := st.opens ++ [(n, d)] } := by
  unfold setCur
  dsimp only
  rw [List.getLast?_concat]
  dsimp only
  rw [List.dropLast_concat]

mutual

/-- Processing the lines of one well-formed, statically safe item from
a mid-document state succeeds, ends in status 2, 3 or 6, and only
rewrites the current dictionary. -/
theorem runItem_ok (it : Item) (pname : Str) (pk : GKind) (cur curOut : Bool)
    (s : Nat) (st : MState) (cd : Od)
    (hwf : wfItem it)
    (hsafe : safeItem pname pk cur it = Option.some curOut)
    (hroot : st.rootOnPath = true)
    (hgp : st.grouppath.getLast? = Option.some (pname, pk))
    (hcd : curDict? st = Option.some cd)
    (hcur : cur = true → cd ≠ [])
    (hs : midStatus s) :
    ∃ (sEnd : Nat) (cd1 : Od),
      runLines (Option.some s, st) (itemLines it)
        = Except.ok (Option.some sEnd, setCur st cd1) ∧
      (sEnd = 2 ∨ sEnd = 3 ∨ sEnd = 6) ∧
      (curOut = true → cd1 ≠ []) := by
  cases it with
  | asgn k v =>
    obtain ⟨hk, hv, hr⟩ := hwf
    rw [show itemLines (Item.asgn k v) = [k ++ '=' :: v] from rfl, runLines_single,
      step_asgn_start hs hk hv.noEq hv.lastOk hr]
    cases pk with
    | g =>
      unfold safeItem at hsafe
      cases hig : IGNOREGROUPS.contains pname with
      | true =>
        rw [hig] at hsafe
        simp only [if_true] at hsafe
        injection hsafe with hsafe
        rw [t2_group_ign hcd hgp hk hv.noEq hv.lastOk hig]
        exact ⟨2, cd, by rw [setCur_self st cd hcd], by omega, hsafe ▸ hcur⟩
      | false =>
        rw [hig] at hsafe
        simp only [Bool.false_eq_true, if_false] at hsafe
        injection hsafe with hsafe
        obtain ⟨w, hw⟩ := postprocess_total v hv.noNull
        rw [t2_group hcd hgp hk hv.noEq hv.lastOk hig hw]
        exact ⟨2, odInsert cd (PyVal.str k) (Meta.val w), rfl, by omega,
          fun _ => odInsert_ne_nil _ _ _⟩
    | o =>
      unfold safeItem at hsafe
      by_cases hkv : k = VALUEKEY
      · subst hkv
        rw [if_pos rfl] at hsafe
        by_cases hp1 : pname = AANAME
        · subst hp1
          rw [if_pos rfl] at hsafe
          injection hsafe with hsafe
          obtain ⟨w, hw⟩ := postprocess_total v hv.noNull
          rw [t2_obj_aan hcd hgp hv.noEq hv.lastOk hw]
          exact ⟨2, odInsert cd w (Meta.val PyVal.none), rfl, by omega,
            fun _ => odInsert_ne_nil _ _ _⟩
        · rw [if_neg hp1] at hsafe
          by_cases hp2 : pname = PVNAME
          · subst hp2
            rw [if_pos rfl] at hsafe
            cases hc : cur with
            | false => rw [hc] at hsafe; simp at hsafe
            | true =>
              rw [hc] at hsafe
              simp only [if_true] at hsafe
              injection hsafe with hsafe
              obtain ⟨cd1, key, oldv, hpop⟩ := odPopLast_some (hcur hc)
              obtain ⟨w, hw⟩ := postprocess_total v hv.noNull
              rw [t2_obj_pv hcd hgp hv.noEq hv.lastOk hpop hw]
              exact ⟨2, odInsert cd1 key (Meta.val w), rfl, by omega,
                fun _ => odInsert_ne_nil _ _ _⟩
          · rw [if_neg hp2] at hsafe
            injection hsafe with hsafe
            obtain ⟨w, hw⟩ := postprocess_total v hv.noNull
            rw [t2_obj_other hcd hgp hv.noEq hv.lastOk hp1 hp2 hw]
            exact ⟨2, odInsert cd (PyVal.str pname) (Meta.val w), rfl, by omega,
              fun _ => odInsert_ne_nil _ _ _⟩
      · rw [if_neg hkv] at hsafe
        injection hsafe with hsafe
        rw [t2_obj_nonvalue hcd hgp hk hv.noEq hv.lastOk hkv]
        exact ⟨2, cd, by rw [setCur_self st cd hcd], by omega, hsafe ▸ hcur⟩
  | grp n b =>
    obtain ⟨hcl, hwfb⟩ := hwf
    rw [show itemLines (Item.grp n b)
      = (GRPSTART ++ n) :: (itemsLines b ++ [GRPEND ++ n]) from rfl]
    rw [runLines, step_grpstart (Or.inr hs) hcl hcd]
    unfold safeItem at hsafe
    cases hig : IGNOREGROUPS.contains n with
    | true =>
      rw [hig] at hsafe
      simp only [if_true] at hsafe
      simp only [hig, if_true]
      set st1 : MState := { st with grouppath := st.grouppath ++ [(n, GKind.g)] } with hst1
      have hroot1 : st1.rootOnPath = true := hroot
      have hgp1 : st1.grouppath.getLast? = Option.some (n, GKind.g) := by
        show (st.grouppath ++ [(n, GKind.g)]).getLast? = _
        rw [List.getLast?_concat]
      have hcd1 : curDict? st1 = Option.some cd := hcd
      obtain ⟨sE, cd1, hrun, hmid, hnil, hnnil, hcu⟩ :=
        runItems_ok b n GKind.g cur curOut 1 st1 cd hwfb hsafe hroot1 hgp1 hcd1 hcur
          (by unfold midStatus; omega)
      rw [runLines_append, hrun]
      dsimp only
      have hgp2 : (setCur st1 cd1).grouppath.getLast? = Option.some (n, GKind.g) := by
        rw [setCur_grouppath]
        exact hgp1
      rw [runLines_single, step_grpend hmid hcl hgp2]
      simp only [hig, if_true]
      refine ⟨3, cd1, ?_, by omega, hcu⟩
      have heq : ({ setCur st1 cd1 with grouppath := (setCur st1 cd1).grouppath.dropLast } : MState) = setCur st cd1 := by
        rw [setCur_grouppath]
        rw [hst1]
        rw [setCur_gp]
        show ({ setCur st cd1 with grouppath := (st.grouppath ++ [(n, GKind.g)]).dropLast } : MState) = _
        rw [List.dropLast_concat, ← setCur_grouppath st cd1]
      rw [heq]
    | false =>
      rw [hig] at hsafe
      simp only [Bool.false_eq_true, if_false] at hsafe
      simp only [hig, Bool.false_eq_true, if_false]
      cases hsb : safeItems n GKind.g false b with
      | none => rw [hsb] at hsafe; cases hsafe
      | some cOut =>
        rw [hsb] at hsafe
        dsimp only at hsafe
        injection hsafe with hsafe
        set st1 : MState := { st with grouppath := st.grouppath ++ [(n, GKind.g)], opens := st.opens ++ [(n, [])] } with hst1
        have hroot1 : st1.rootOnPath = true := hroot
        have hgp1 : st1.grouppath.getLast? = Option.some (n, GKind.g) := by
          show (st.grouppath ++ [(n, GKind.g)]).getLast? = _
          rw [List.getLast?_concat]
        have hcd1 : curDict? st1 = Option.some [] := by
          show (match (st.opens ++ [(n, [])]).getLast? with
            | Option.some (_, d) => Option.some d
            | Option.none => if st1.rootOnPath then Option.some st1.root else Option.none)
            = Option.some []
          rw [List.getLast?_concat]
        obtain ⟨sE, cd1, hrun, hmid, hnil, hnnil, hcu⟩ :=
          runItems_ok b n GKind.g false cOut 1 st1 [] hwfb hsb hroot1 hgp1 hcd1
            (fun h => absurd h (by simp)) (by unfold midStatus; omega)
        rw [runLines_append, hrun]
        dsimp only
        have hsetp : setCur st1 cd1 = { st with grouppath := st.grouppath ++ [(n, GKind.g)], opens := st.opens ++ [(n, cd1)] } := by
          rw [hst1]
          exact setCur_push st _ n [] cd1
        have hgp2 : (setCur st1 cd1).grouppath.getLast? = Option.some (n, GKind.g) := by
          rw [setCur_grouppath]
          exact hgp1
        rw [runLines_single, step_grpend hmid hcl hgp2]
        simp only [hig, Bool.false_eq_true, if_false]
        have heq : ({ setCur st1 cd1 with grouppath := (setCur st1 cd1).grouppath.dropLast } : MState) = { st with opens := st.opens ++ [(n, cd1)] } := by
          rw [setCur_grouppath, hsetp, hst1]
          show ({ st with grouppath := (st.grouppath ++ [(n, GKind.g)]).dropLast, opens := st.opens ++ [(n, cd1)] } : MState) = _
          rw [List.dropLast_concat]
        rw [heq, popDictE_concat st n cd1 cd hcd]
        refine ⟨3, odInsert cd (PyVal.str n) (Meta.dict cd1), rfl, by omega,
          fun _ => odInsert_ne_nil _ _ _⟩
  | obj n b =>
    obtain ⟨hcl, hwfb⟩ := hwf
    rw [show itemLines (Item.obj n b)
      = (OBJSTART ++ n) :: (itemsLines b ++ [OBJEND ++ n]) from rfl]
    rw [runLines, step_objstart hs hcl]
    dsimp only
    unfold safeItem at hsafe
    set st1 : MState := { st with grouppath := st.grouppath ++ [(n, GKind.o)] } with hst1
    have hroot1 : st1.rootOnPath = true := hroot
    have hgp1 : st1.grouppath.getLast? = Option.some (n, GKind.o) := by
      show (st.grouppath ++ [(n, GKind.o)]).getLast? = _
      rw [List.getLast?_concat]
    have hcd1 : curDict? st1 = Option.some cd := hcd
    obtain ⟨sE, cd1, hrun, hmid, hnil, hnnil, hcu⟩ :=
      runItems_ok b n GKind.o cur curOut 5 st1 cd hwfb hsafe hroot1 hgp1 hcd1 hcur
        (by unfold midStatus; omega)
    rw [runLines_append, hrun]
    dsimp only
    have hgp2 : (setCur st1 cd1).grouppath.getLast? = Option.some (n, GKind.o) := by
      rw [setCur_grouppath]
      exact hgp1
    have hsE : sE = 2 ∨ sE = 3 ∨ sE = 5 ∨ sE = 6 := by
      by_cases hb : b = ItemList.nil
      · have := (hnil hb).1
        omega
      · have := hnnil hb
        omega
    rw [runLines_single, step_objend hsE hcl hgp2]
    refine ⟨6, cd1, ?_, by omega, hcu⟩
    have heq : ({ setCur st1 cd1 with grouppath := (setCur st1 cd1).grouppath.dropLast } : MState) = setCur st cd1 := by
      rw [setCur_grouppath]
      rw [hst1]
      rw [setCur_gp]
      show ({ setCur st cd1 with grouppath := (st.grouppath ++ [(n, GKind.o)]).dropLast } : MState) = _
      rw [List.dropLast_concat, ← setCur_grouppath st cd1]
    rw [heq]
termination_by sizeOf it

/-- Processing the lines of a well-formed, statically safe item list
from a mid-document state succeeds and only rewrites the current
dictionary. -/
theorem runItems_ok (b : ItemList) (pname : Str) (pk : GKind) (cur curOut : Bool)
    (s : Nat) (st : MState) (cd : Od)
    (hwf : wfItems b)
    (hsafe : safeItems pname pk cur b = Option.some curOut)
    (hroot : st.rootOnPath = true)
    (hgp : st.grouppath.getLast? = Option.some (pname, pk))
    (hcd : curDict? st = Option.some cd)
    (hcur : cur = true → cd ≠ [])
    (hs : midStatus s) :
    ∃ (sEnd : Nat) (cd1 : Od),
      runLines (Option.some s, st) (itemsLines b)
        = Except.ok (Option.some sEnd, setCur st cd1) ∧
      midStatus sEnd ∧
      (b = ItemList.nil → sEnd = s ∧ cd1 = cd) ∧
      (b ≠ ItemList.nil → (sEnd = 2 ∨ sEnd = 3 ∨ sEnd = 6)) ∧
      (curOut = true → cd1 ≠ []) := by
  cases b with
  | nil =>
    unfold safeItems at hsafe
    injection hsafe with hsafe
    refine ⟨s, cd, ?_, hs, fun _ => ⟨rfl, rfl⟩, fun hne => absurd rfl hne, hsafe ▸ hcur⟩
    rw [show itemsLines ItemList.nil = [] from rfl, runLines, setCur_self st cd hcd]
  | cons it rest =>
    obtain ⟨hwfit, hwfrest⟩ := hwf
    unfold safeItems at hsafe
    cases hsi : safeItem pname pk cur it with
    | none => rw [hsi] at hsafe; cases hsafe
    | some cur1 =>
      rw [hsi] at hsafe
      dsimp only at hsafe
      obtain ⟨sE1, cd1, hrun1, hset1, hcu1⟩ :=
        runItem_ok it pname pk cur cur1 s st cd hwfit hsi hroot hgp hcd hcur hs
      rw [show itemsLines (ItemList.cons it rest) = itemLines it ++ itemsLines rest from rfl,
        runLines_append, hrun1]
      dsimp only
      obtain ⟨sE, cd2, hrun2, hmid2, hnil2, hnnil2, hcu2⟩ :=
        runItems_ok rest pname pk cur1 curOut sE1 (setCur st cd1) cd1 hwfrest hsafe
          (by rw [setCur_rootOnPath]; exact hroot)
          (by rw [setCur_grouppath]; exact hgp)
          (curDict?_setCur st cd1 hroot) hcu1 (mid236 hset1)
      rw [hrun2, setCur_setCur]
      refine ⟨sE, cd2, rfl, hmid2, fun h => ItemList.noConfusion h, fun _ => ?_, hcu2⟩
      by_cases hb : rest = ItemList.nil
      · obtain ⟨h1, _⟩ := hnil2 hb
        omega
      · exact hnnil2 hb
termination_by sizeOf b

end


/-! ## Top-level documents -/

theorem transstat4_empty {st : MState} (h : st.grouppath = []) (l : Str) :
    transstat (Option.some 4) st l = Except.ok st := by
  rw [show transstat (Option.some 4) st l = transstatS4 st from rfl]
  unfold transstatS4
  rw [if_neg (by rw [h]; exact fun hc => hc rfl)]

theorem transstat4_iff (st : MState) (l : Str) :
    transstat (Option.some 4) st l
      = (if st.grouppath = [] then Except.ok st else Except.error PyErr.mtlParseError) := by
  rw [show transstat (Option.some 4) st l = transstatS4 st from rfl]
  unfold transstatS4
  by_cases h : st.grouppath = []
  · rw [if_pos h, if_neg (by rw [h]; exact fun hc => hc rfl)]
  · rw [if_neg h, if_pos h]

/-- Processing one well-formed, statically safe top-level `GROUP`
block from status 0 or any mid status succeeds, ends in status 3, and
only rewrites the current dictionary.  (Same argument as the group case
of `runItem_ok`, without any assumption on the enclosing `grouppath`.) -/
theorem runGrp_ok (n : Str) (b : ItemList) (cur curOut : Bool) (s : Nat) (st : MState)
    (cd : Od)
    (hcl : cleanTok n) (hwfb : wfItems b)
    (hsafe : safeItem [] GKind.g cur (Item.grp n b) = Option.some curOut)
    (hroot : st.rootOnPath = true)
    (hcd : curDict? st = Option.some cd)
    (hcur : cur = true → cd ≠ [])
    (hs : s = 0 ∨ midStatus s) :
    ∃ (cd1 : Od),
      runLines (Option.some s, st) (itemLines (Item.grp n b))
        = Except.ok (Option.some 3, setCur st cd1) ∧
      (curOut = true → cd1 ≠ []) := by
  rw [show itemLines (Item.grp n b)
    = (GRPSTART ++ n) :: (itemsLines b ++ [GRPEND ++ n]) from rfl]
  rw [runLines, step_grpstart hs hcl hcd]
  unfold safeItem at hsafe
  cases hig : IGNOREGROUPS.contains n with
  | true =>
    rw [hig] at hsafe
    simp only [if_true] at hsafe
    simp only [hig, if_true]
    set st1 : MState := { st with grouppath := st.grouppath ++ [(n, GKind.g)] } with hst1
    have hroot1 : st1.rootOnPath = true := hroot
    have hgp1 : st1.grouppath.getLast? = Option.some (n, GKind.g) := by
      show (st.grouppath ++ [(n, GKind.g)]).getLast? = _
      rw [List.getLast?_concat]
    have hcd1 : curDict? st1 = Option.some cd := hcd
    obtain ⟨sE, cd1, hrun, hmid, hnil, hnnil, hcu⟩ :=
      runItems_ok b n GKind.g cur curOut 1 st1 cd hwfb hsafe hroot1 hgp1 hcd1 hcur
        (by unfold midStatus; omega)
    rw [runLines_append, hrun]
    dsimp only
    have hgp2 : (setCur st1 cd1).grouppath.getLast? = Option.some (n, GKind.g) := by
      rw [setCur_grouppath]
      exact hgp1
    rw [runLines_single, step_grpend hmid hcl hgp2]
    simp only [hig, if_true]
    refine ⟨cd1, ?_, hcu⟩
    have heq : ({ setCur st1 cd1 with grouppath := (setCur st1 cd1).grouppath.dropLast } : MState) = setCur st cd1 := by
      rw [setCur_grouppath]
      rw [hst1]
      rw [setCur_gp]
      show ({ setCur st cd1 with grouppath := (st.grouppath ++ [(n, GKind.g)]).dropLast } : MState) = _
      rw [List.dropLast_concat, ← setCur_grouppath st cd1]
    rw [heq]
  | false =>
    rw [hig] at hsafe
    simp only [Bool.false_eq_true, if_false] at hsafe
    simp only [hig, Bool.false_eq_true, if_false]
    cases hsb : safeItems n GKind.g false b with
    | none => rw [hsb] at hsafe; cases hsafe
    | some cOut =>
      rw [hsb] at hsafe
      dsimp only at hsafe
      injection hsafe with hsafe
      set st1 : MState := { st with grouppath := st.grouppath ++ [(n, GKind.g)], opens := st.opens ++ [(n, [])] } with hst1
      have hroot1 : st1.rootOnPath = true := hroot
      have hgp1 : st1.grouppath.getLast? = Option.some (n, GKind.g) := by
        show (st.grouppath ++ [(n, GKind.g)]).getLast? = _
        rw [List.getLast?_concat]
      have hcd1 : curDict? st1 = Option.some [] := by
        show (match (st.opens ++ [(n, [])]).getLast? with
          | Option.some (_, d) => Option.some d
          | Option.none => if st1.rootOnPath then Option.some st1.root else Option.none)
          = Option.some []
        rw [List.getLast?_concat]
      obtain ⟨sE, cd1, hrun, hmid, hnil, hnnil, hcu⟩ :=
        runItems_ok b n GKind.g false cOut 1 st1 [] hwfb hsb hroot1 hgp1 hcd1
          (fun h => absurd h (by simp)) (by unfold midStatus; omega)
      rw [runLines_append, hrun]
      dsimp only
      have hsetp : setCur st1 cd1 = { st with grouppath := st.grouppath ++ [(n, GKind.g)], opens := st.opens ++ [(n, cd1)] } := by
        rw [hst1]
        exact setCur_push st _ n [] cd1
      have hgp2 : (setCur st1 cd1).grouppath.getLast? = Option.some (n, GKind.g) := by
        rw [setCur_grouppath]
        exact hgp1
      rw [runLines_single, step_grpend hmid hcl hgp2]
      simp only [hig, Bool.false_eq_true, if_false]
      have heq : ({ setCur st1 cd1 with grouppath := (setCur st1 cd1).grouppath.dropLast } : MState) = { st with opens := st.opens ++ [(n, cd1)] } := by
        rw [setCur_grouppath, hsetp, hst1]
        show ({ st with grouppath := (st.grouppath ++ [(n, GKind.g)]).dropLast, opens := st.opens ++ [(n, cd1)] } : MState) = _
        rw [List.dropLast_concat]
      rw [heq, popDictE_concat st n cd1 cd hcd]
      exact ⟨odInsert cd (PyVal.str n) (Meta.dict cd1), rfl,
        fun _ => odInsert_ne_nil _ _ _⟩

/-- Processing the lines of a well-formed, statically safe list of
top-level groups from status 0 or 3 succeeds, ends in status 0 or 3,
and only rewrites the current dictionary. -/
theorem runTop_ok (gs : ItemList) (cur curOut : Bool) (s : Nat) (st : MState) (cd : Od)
    (htop : topGroups gs)
    (hwf : wfItems gs)
    (hsafe : safeItems [] GKind.g cur gs = Option.some curOut)
    (hroot : st.rootOnPath = true)
    (hcd : curDict? st = Option.some cd)
    (hcur : cur = true → cd ≠ [])
    (hs : s = 0 ∨ s = 3) :
    ∃ (sEnd : Nat) (cd1 : Od),
      runLines (Option.some s, st) (itemsLines gs)
        = Except.ok (Option.some sEnd, setCur st cd1) ∧
      (sEnd = 0 ∨ sEnd = 3) := by
  cases gs with
  | nil =>
    exact ⟨s, cd, by rw [show itemsLines ItemList.nil = [] from rfl, runLines,
      setCur_self st cd hcd], hs⟩
  | cons it rest =>
    cases it with
    | obj n b => exact absurd htop id
    | asgn k v => exact absurd htop id
    | grp n b =>
      obtain ⟨⟨hcl, hwfb⟩, hwfrest⟩ := hwf
      unfold safeItems at hsafe
      cases hsi : safeItem [] GKind.g cur (Item.grp n b) with
      | none => rw [hsi] at hsafe; cases hsafe
      | some cur1 =>
        rw [hsi] at hsafe
        dsimp only at hsafe
        have hs01 : s = 0 ∨ midStatus s := by
          rcases hs with rfl | rfl
          · exact Or.inl rfl
          · exact Or.inr (by unfold midStatus; omega)
        obtain ⟨cdX, hrunX, hcuX⟩ :=
          runGrp_ok n b cur cur1 s st cd hcl hwfb hsi hroot hcd hcur hs01
        rw [show itemsLines (ItemList.cons (Item.grp n b) rest)
          = itemLines (Item.grp n b) ++ itemsLines rest from rfl,
          runLines_append, hrunX]
        dsimp only
        obtain ⟨sEnd, cd1, hrun1, hend1⟩ :=
          runTop_ok rest cur1 curOut 3 (setCur st cdX) cdX htop hwfrest hsafe
            (by rw [setCur_rootOnPath]; exact hroot)
            (curDict?_setCur st cdX hroot) hcuX (Or.inr rfl)
        rw [hrun1, setCur_setCur]
        exact ⟨sEnd, cd1, rfl, hend1⟩
termination_by sizeOf gs


/-- A well-formed, statically safe document parses successfully:
the run ends in status 4 with an empty `grouppath`, and
`_parsemetastream` returns the accumulated root dictionary. -/
theorem parse_doc_ok (gs : ItemList)
    (htop : topGroups gs) (hwf : wfItems gs)
    (hsafe : (safeItems [] GKind.g false gs).isSome = true) :
    ∃ st : MState,
      runLines (Option.some 0, initState) (docLines gs) = Except.ok (Option.some 4, st) ∧
      st.grouppath = [] ∧
      parsemetastream (docLines gs) = Except.ok (collapseOpens st.root st.opens) := by
  obtain ⟨curOut, hso⟩ := Option.isSome_iff_exists.mp hsafe
  obtain ⟨sEnd, cd1, hrun, hend⟩ :=
    runTop_ok gs false curOut 0 initState [] htop hwf hso rfl rfl
      (fun h => absurd h (by simp)) (Or.inl rfl)
  have hgp : (setCur initState cd1).grouppath = [] := by
    rw [setCur_grouppath]
    rfl
  have hsan : sanitizeline FINAL = FINAL := by decide
  have hne : FINAL ≠ [] := by decide
  have hne4 : (Option.some sEnd : Option Nat) ≠ Option.some 4 := by
    rcases hend with rfl | rfl <;> simp
  have hfull : runLines (Option.some 0, initState) (docLines gs)
      = Except.ok (Option.some 4, setCur initState cd1) := by
    unfold docLines
    rw [runLines_append, hrun]
    dsimp only
    rw [runLines_single, stepLine_eq _ _ hsan hne hne4]
    dsimp only
    rw [checkstatus_final hend]
    dsimp only
    rw [transstat4_empty hgp]
  refine ⟨setCur initState cd1, hfull, hgp, ?_⟩
  unfold parsemetastream
  rw [hfull]

/-! # The claims -/

/-- The input sequence of claim C1 — enter object
`ADDITIONALATTRIBUTENAME` with `VALUE="AveragedBlackBodyTemperature"`,
close it, enter group `INFORMATIONCONTENT`, enter object
`PARAMETERVALUE` with `VALUE=" 290.01"`, close both — embedded in an
enclosing group `G` (the state machine only accepts `GROUP` lines from
the begin state), with the whitespace layout of the MODIS metadata
files. -/
def c1lines : List Str := [lit "GROUP = G",
  lit "  OBJECT = ADDITIONALATTRIBUTENAME",
  lit "    VALUE = \"AveragedBlackBodyTemperature\"",
  lit "  END_OBJECT = ADDITIONALATTRIBUTENAME",
  lit "  GROUP = INFORMATIONCONTENT",
  lit "    OBJECT = PARAMETERVALUE",
  lit "      VALUE = \" 290.01\"",
  lit "    END_OBJECT = PARAMETERVALUE",
  lit "  END_GROUP = INFORMATIONCONTENT",
  lit "END_GROUP = G",
  lit "END"]

/-- Claim C1: the `PARAMETERVALUE` folding.  The concrete sequence
parses successfully and the enclosing composite maps
`"AveragedBlackBodyTemperature"` to the float `290.01`; and in
general, a `VALUE` assignment inside an object named `PARAMETERVALUE`
pops the most recently inserted key/value pair of the enclosing
composite (`popitem`) and re-inserts the same key bound to the newly
inferred value. -/
theorem C1_parametervalue_folding
    (st : MState) (cd cd1 : Od) (key : PyVal) (oldv : Meta) (v : Str) (w : PyVal)
    (hcd : curDict? st = Option.some cd)
    (hgp : st.grouppath.getLast? = Option.some (PVNAME, GKind.o))
    (hv : cleanTok v)
    (hpop : odPopLast cd = Option.some (cd1, key, oldv))
    (hw : postprocess v = Except.ok w) :
    parsemetastream c1lines = Except.ok
      [(PyVal.str (lit "G"), Meta.dict
        [(PyVal.str (lit "AveragedBlackBodyTemperature"),
          Meta.val (PyVal.float (mkRat 29001 100)))])] ∧
    transstat (Option.some 2) st (VALUEKEY ++ '=' :: v)
      = Except.ok (setCur st (odInsert cd1 key (Meta.val w))) :=
  ⟨by decide, t2_obj_pv hcd hgp hv.eqFree hv.lnw hpop hw⟩

/-- The state used to witness claim C1's general part: inside group
`G` (whose composite holds one placeholder entry `X ↦ None`), with an
open `PARAMETERVALUE` object on top of `grouppath`. -/
def c1stW : MState :=
  { grouppath := [(lit "G", GKind.g), (PVNAME, GKind.o)],
    rootOnPath := true, root := [],
    opens := [(lit "G", [(PyVal.str (lit "X"), Meta.val PyVal.none)])] }

/-- Witness for claim C1 at a concrete state and value. -/
theorem C1_parametervalue_folding_witness :
    curDict? c1stW = Option.some [(PyVal.str (lit "X"), Meta.val PyVal.none)] ∧
    c1stW.grouppath.getLast? = Option.some (PVNAME, GKind.o) ∧
    cleanTok (lit "1") ∧
    odPopLast [(PyVal.str (lit "X"), Meta.val PyVal.none)]
      = Option.some ([], PyVal.str (lit "X"), Meta.val PyVal.none) ∧
    postprocess (lit "1") = Except.ok (PyVal.int 1) ∧
    (parsemetastream c1lines = Except.ok
      [(PyVal.str (lit "G"), Meta.dict
        [(PyVal.str (lit "AveragedBlackBodyTemperature"),
          Meta.val (PyVal.float (mkRat 29001 100)))])] ∧
    transstat (Option.some 2) c1stW (VALUEKEY ++ '=' :: lit "1")
      = Except.ok (setCur c1stW (odInsert [] (PyVal.str (lit "X"))
          (Meta.val (PyVal.int 1))))) :=
  ⟨by decide, by decide, by decide, by decide, by decide,
    C1_parametervalue_folding c1stW [(PyVal.str (lit "X"), Meta.val PyVal.none)] []
      (PyVal.str (lit "X")) (Meta.val PyVal.none) (lit "1") (PyVal.int 1)
      (by decide) (by decide) (by decide) (by decide) (by decide)⟩

/-- A document whose ignored group `INFORMATIONCONTENT` contains a
direct key/value assignment `FOO=1`. -/
def c2lines : List Str := [lit "GROUP = G", lit "  GROUP = INFORMATIONCONTENT",
  lit "    FOO = 1", lit "  END_GROUP = INFORMATIONCONTENT", lit "END_GROUP = G",
  lit "END"]

/-- A document whose ignored group `INFORMATIONCONTENT` contains a
nested non-ignored subgroup. -/
def c2blines : List Str := [lit "GROUP = G", lit "  GROUP = INFORMATIONCONTENT",
  lit "    GROUP = SUB", lit "      A = 1", lit "    END_GROUP = SUB",
  lit "  END_GROUP = INFORMATIONCONTENT", lit "END_GROUP = G", lit "END"]

/-- Counterexample to claim C2: a key/value assignment appearing as a
direct child of the ignored group `INFORMATIONCONTENT` is NOT inserted
into the parent's composite — it is discarded (the parse yields `G`
bound to an empty composite, not to `{FOO ↦ 1}`). -/
theorem C2_ignored_group_counterexample :
    parsemetastream c2lines = Except.ok [(PyVal.str (lit "G"), Meta.dict [])] ∧
    ¬ parsemetastream c2lines = Except.ok
      [(PyVal.str (lit "G"), Meta.dict [(PyVal.str (lit "FOO"), Meta.val (PyVal.int 1))])] :=
  ⟨by decide, by decide⟩

/-- Claim C2 as amended: an ignored group contributes no extra nesting
level — entering it pushes `grouppath` but neither `dictPath` level
nor a new composite (the `opens` stack is unchanged), and its nested
non-ignored children are inserted directly into the parent's
composite — but a key/value assignment that is a direct child of the
ignored group is discarded, not flattened into the parent. -/
theorem C2_ignored_group_flattening
    (st : MState) (cd : Od) (n k v : Str)
    (hcd : curDict? st = Option.some cd)
    (hcln : cleanTok n) (hig : IGNOREGROUPS.contains n = true)
    (hk : cleanTok k) (hv : cleanTok v)
    (hgp : st.grouppath.getLast? = Option.some (n, GKind.g)) :
    parsemetastream c2blines = Except.ok
      [(PyVal.str (lit "G"), Meta.dict
        [(PyVal.str (lit "SUB"), Meta.dict
          [(PyVal.str (lit "A"), Meta.val (PyVal.int 1))])])] ∧
    transstat (Option.some 1) st (GRPSTART ++ n)
      = Except.ok { st with grouppath := st.grouppath ++ [(n, GKind.g)] } ∧
    transstat (Option.some 2) st (k ++ '=' :: v) = Except.ok st := by
  refine ⟨by decide, ?_, t2_group_ign hcd hgp hk hv.eqFree hv.lnw hig⟩
  rw [transstat1_eq hcd hcln, hig]
  simp

/-- The state used to witness claim C2: directly inside the ignored
group. -/
def c2stW : MState :=
  { grouppath := [(lit "G", GKind.g), (lit "INFORMATIONCONTENT", GKind.g)],
    rootOnPath := true, root := [], opens := [(lit "G", [])] }

/-- Witness for claim C2 at a concrete state. -/
theorem C2_ignored_group_flattening_witness :
    curDict? c2stW = Option.some [] ∧
    cleanTok (lit "INFORMATIONCONTENT") ∧
    IGNOREGROUPS.contains (lit "INFORMATIONCONTENT") = true ∧
    cleanTok (lit "FOO") ∧ cleanTok (lit "1") ∧
    c2stW.grouppath.getLast? = Option.some (lit "INFORMATIONCONTENT", GKind.g) ∧
    (parsemetastream c2blines = Except.ok
      [(PyVal.str (lit "G"), Meta.dict
        [(PyVal.str (lit "SUB"), Meta.dict
          [(PyVal.str (lit "A"), Meta.val (PyVal.int 1))])])] ∧
    transstat (Option.some 1) c2stW (GRPSTART ++ lit "INFORMATIONCONTENT")
      = Except.ok { c2stW with
          grouppath := c2stW.grouppath ++ [(lit "INFORMATIONCONTENT", GKind.g)] } ∧
    transstat (Option.some 2) c2stW (lit "FOO" ++ '=' :: lit "1") = Except.ok c2stW) :=
  ⟨by decide, by decide, by decide, by decide, by decide, by decide,
    C2_ignored_group_flattening c2stW [] (lit "INFORMATIONCONTENT") (lit "FOO") (lit "1")
      (by decide) (by decide) (by decide) (by decide) (by decide) (by decide)⟩

/-- A complete document followed by one extra nonempty line after the
`END` sentinel. -/
def c3lines : List Str := [lit "GROUP = A", lit "END_GROUP = A", lit "END",
  lit "EXTRA = 1"]

/-- Claim C3 (the code has a bug here): a nonempty line after the
`END` sentinel is supposed to produce only a recoverable warning, but
the warning call in `_parsemetastream` formats the undefined global
name `metadatafn`, so the parse aborts with `NameError` instead of
returning the completed tree. -/
theorem C3_trailing_lines_nameerror :
    parsemetastream c3lines = Except.error PyErr.nameError := by decide

/-- Counterexample to claim C4: `parsemeta` on a directory whose glob
finds no metadata file raises `MTLParseError` — the module's only
exception class, the very same constructor raised for an invalid
transition — not a distinct `NotFoundError`. -/
theorem C4_nofile_counterexample :
    parsemeta_dir [] (fun _ => []) = Except.error PyErr.mtlParseError ∧
    checkstatus (Option.some 0) (lit "FOO=1") = Except.error PyErr.mtlParseError :=
  ⟨by decide, by decide⟩

/-- Claim C4 as amended: for every directory content, an empty glob
result makes `parsemeta` fail with `MTLParseError`, the same error
kind the state machine raises for an invalid transition; the module
has no separate `NotFoundError`. -/
theorem C4_nofile_mtlparseerror (content : Str → List Str) :
    parsemeta_dir [] content = Except.error PyErr.mtlParseError ∧
    checkstatus (Option.some 0) (lit "FOO=1") = Except.error PyErr.mtlParseError :=
  ⟨rfl, by decide⟩

/-- Witness for claim C4 at a concrete content function. -/
theorem C4_nofile_mtlparseerror_witness :
    parsemeta_dir [] (fun _ => [lit "END"]) = Except.error PyErr.mtlParseError ∧
    checkstatus (Option.some 0) (lit "FOO=1") = Except.error PyErr.mtlParseError :=
  C4_nofile_mtlparseerror (fun _ => [lit "END"])

/-- Counterexample to claim C5: `_postprocess` is NOT total.  On a
value containing a null byte, `ast.literal_eval` calls `compile()`,
which in Python 2.7 raises `TypeError` ("compile() expected string
without null bytes"); the `except (ValueError, SyntaxError)` handler
does not catch `TypeError`, so `_postprocess` raises instead of
returning a value. -/
theorem C5_null_byte_counterexample :
    postprocess (lit "\x00") = Except.error PyErr.typeError ∧
    ¬ postprocess (lit "\x00") = Except.ok (PyVal.str (lit "\x00")) :=
  ⟨by decide, by decide⟩

/-- Claim C5 as amended: the value type inferencer is total on every
string free of null bytes — there `literal_eval` fails only with the
caught `ValueError`/`SyntaxError`, each `strptime` attempt fails only
with the caught `ValueError`, and when no typed category applies the
final fallback returns the raw string. -/
theorem C5_infer_total_nullfree :
    (∀ s : Str, '\x00' ∉ s → ∃ v, postprocess s = Except.ok v) ∧
    postprocess [] = Except.ok (PyVal.str []) ∧
    postprocess (lit "hello world") = Except.ok (PyVal.str (lit "hello world")) :=
  ⟨postprocess_total, by decide, by decide⟩

/-- Witness for claim C5's amended theorem at a concrete null-free
string. -/
theorem C5_infer_total_nullfree_witness :
    ('\x00' ∉ lit "2013-06-02" ∧
      ∃ v, postprocess (lit "2013-06-02") = Except.ok v) ∧
    postprocess [] = Except.ok (PyVal.str []) ∧
    postprocess (lit "hello world") = Except.ok (PyVal.str (lit "hello world")) :=
  ⟨⟨by decide, C5_infer_total_nullfree.1 (lit "2013-06-02") (by decide)⟩,
    C5_infer_total_nullfree.2.1, C5_infer_total_nullfree.2.2⟩

/-- Claim C6: the concrete value inferences — `'"LANDSAT_8"'` is the
dequoted string, `'123'` the integer 123, `'0.9996'` the float 0.9996,
`'2013-06-02'` the date 2013-06-02, and `'2013-06-02T15:00:01Z'` a
datetime. -/
theorem C6_infer_concrete :
    postprocess (lit "\"LANDSAT_8\"") = Except.ok (PyVal.str (lit "LANDSAT_8")) ∧
    postprocess (lit "123") = Except.ok (PyVal.int 123) ∧
    postprocess (lit "0.9996") = Except.ok (PyVal.float (mkRat 9996 10000)) ∧
    postprocess (lit "2013-06-02") = Except.ok (PyVal.date 2013 6 2) ∧
    postprocess (lit "2013-06-02T15:00:01Z")
      = Except.ok (PyVal.datetime 2013 6 2 15 0 1) :=
  ⟨by decide, by decide, by decide, by decide, by decide⟩

/-- A group opened as `A` and closed as `B`. -/
def c7lines : List Str := [lit "GROUP = A", lit "END_GROUP = B", lit "END"]

/-- Claim C7: a group-end line whose name differs from the name at
the top of `groupPath` raises `MTLParseError` (the closing name is
compared against `grouppath[-1]` before anything is popped), and the
concrete input `GROUP=A / END_GROUP=B / END` fails the same way. -/
theorem C7_mismatched_close (st : MState) (a B : Str) (t : GKind)
    (hgp : st.grouppath.getLast? = Option.some (a, t))
    (hcl : cleanTok B) (hne : B ≠ a) :
    transstat (Option.some 3) st (GRPEND ++ B) = Except.error PyErr.mtlParseError ∧
    parsemetastream c7lines = Except.error PyErr.mtlParseError := by
  refine ⟨?_, by decide⟩
  rw [show transstat (Option.some 3) st (GRPEND ++ B) = transstatS3 st (GRPEND ++ B)
    from rfl]
  unfold transstatS3
  rw [getendgroupname_line hcl, hgp]
  dsimp only
  rw [if_pos hne]

/-- The state used to witness claim C7. -/
def c7stW : MState :=
  { grouppath := [(lit "A", GKind.g)], rootOnPath := true, root := [],
    opens := [(lit "A", [])] }

/-- Witness for claim C7 at a concrete state. -/
theorem C7_mismatched_close_witness :
    c7stW.grouppath.getLast? = Option.some (lit "A", GKind.g) ∧
    cleanTok (lit "B") ∧ lit "B" ≠ lit "A" ∧
    (transstat (Option.some 3) c7stW (GRPEND ++ lit "B")
      = Except.error PyErr.mtlParseError ∧
    parsemetastream c7lines = Except.error PyErr.mtlParseError) :=
  ⟨by decide, by decide, by decide,
    C7_mismatched_close c7stW (lit "A") (lit "B") GKind.g (by decide) (by decide)
      (by decide)⟩

/-- A properly nested, name-matched document whose only block is a
top-level object. -/
def c8objlines : List Str := [lit "OBJECT = X", lit "END_OBJECT = X", lit "END"]

/-- A properly nested, name-matched document with a `PARAMETERVALUE`
object whose `VALUE` assignment arrives while the enclosing composite
is still empty. -/
def c8pvlines : List Str := [lit "GROUP = G", lit "  OBJECT = PARAMETERVALUE",
  lit "    VALUE = 1", lit "  END_OBJECT = PARAMETERVALUE", lit "END_GROUP = G",
  lit "END"]

/-- The document used to witness claim C8: one group containing an
assignment, an `ADDITIONALATTRIBUTENAME` object, an ignored group
holding a `PARAMETERVALUE` object, and a nested subgroup holding a
quoted multi-word value (a clean value with interior whitespace). -/
def c8gsW : ItemList :=
  ItemList.cons (Item.grp (lit "L1")
    (ItemList.cons (Item.asgn (lit "A") (lit "1"))
      (ItemList.cons (Item.obj AANAME
        (ItemList.cons (Item.asgn VALUEKEY (lit "\"NAME\"")) ItemList.nil))
        (ItemList.cons (Item.grp (lit "INFORMATIONCONTENT")
          (ItemList.cons (Item.obj PVNAME
            (ItemList.cons (Item.asgn VALUEKEY (lit "2")) ItemList.nil))
            ItemList.nil))
          (ItemList.cons (Item.grp (lit "SUB")
            (ItemList.cons (Item.asgn (lit "B") (lit "3"))
              (ItemList.cons (Item.asgn (lit "ORIGIN")
                (lit "\"Image courtesy of the U.S. Geological Survey\""))
                ItemList.nil)))
            ItemList.nil)))))
    ItemList.nil

/-- A document that inserts key `B` before key `A`. -/
def c9lines : List Str := [lit "GROUP = G", lit "  B = 1", lit "  A = 2",
  lit "END_GROUP = G", lit "END"]

/-- Counterexample to claim C9: the tree returned by `parsemeta` does
NOT preserve insertion order.  The file inserts `B` before `A`, and
the `OrderedDict` stage keeps that order, but `parsemeta` converts the
tree with `_deep_convert_dict` into plain Python 2 `dict`s, whose
iteration order is a function of the keys alone — here `A` before `B`,
not the file order `B` before `A`. -/
theorem C9_insertion_order_counterexample :
    parsemeta_lines c9lines = Except.ok
      (PyTree.dict [(PyVal.str (lit "G"), PyTree.dict
        [(PyVal.str (lit "A"), PyTree.val (PyVal.int 2)),
         (PyVal.str (lit "B"), PyTree.val (PyVal.int 1))])]) ∧
    ¬ parsemeta_lines c9lines = Except.ok
      (PyTree.dict [(PyVal.str (lit "G"), PyTree.dict
        [(PyVal.str (lit "B"), PyTree.val (PyVal.int 1)),
         (PyVal.str (lit "A"), PyTree.val (PyVal.int 2))])]) :=
  ⟨by decide, by decide⟩

/-- Claim C9 as amended: the composites built during parsing
(`_parsemetastream`, `OrderedDict`s) do preserve insertion order, but
`parsemeta` returns `_deep_convert_dict(metadata)`, which converts
every composite to a plain Python 2 `dict`, so the returned tree
iterates in an order determined by the keys, not in file order. -/
theorem C9_order_lost_by_deep_convert :
    parsemetastream c9lines = Except.ok
      [(PyVal.str (lit "G"), Meta.dict
        [(PyVal.str (lit "B"), Meta.val (PyVal.int 1)),
         (PyVal.str (lit "A"), Meta.val (PyVal.int 2))])] ∧
    parsemeta_lines c9lines = Except.ok
      (PyTree.dict [(PyVal.str (lit "G"), PyTree.dict
        [(PyVal.str (lit "A"), PyTree.val (PyVal.int 2)),
         (PyVal.str (lit "B"), PyTree.val (PyVal.int 1))])]) ∧
    (∀ ls : List Str, parsemeta_lines ls
      = (parsemetastream ls).map (fun od => deep_convert_dict (Meta.dict od))) := by
  refine ⟨by decide, by decide, fun ls => ?_⟩
  unfold parsemeta_lines
  cases parsemetastream ls with
  | ok od => rfl
  | error e => rfl

/-- A complete, well-matched top-level group followed by one extra
`END_GROUP` line before the `END` sentinel. -/
def c10lines : List Str := [lit "GROUP = A", lit "END_GROUP = A",
  lit "END_GROUP = A", lit "END"]

/-- Claim C10: with one `END_GROUP` too many, the state machine still
accepts the transition into the group-close state, and the close
handler then reads `grouppath[-1]` on the empty stack unguarded, so
the parse fails with `IndexError`, not with the parser's own
`MTLParseError`. -/
theorem C10_extra_endgroup_indexerror :
    checkstatus (Option.some 3) (lit "END_GROUP=A") = Except.ok (Option.some 3) ∧
    parsemetastream c10lines = Except.error PyErr.indexError ∧
    PyErr.indexError ≠ PyErr.mtlParseError :=
  ⟨by decide, by decide, by decide⟩

end Mtl
